import Mathlib

/-!
# Verification of the picamera2 example scripts

A shallow embedding of the ePTZ crop calculators from `examples/eptz_recording.py`,
`examples/fpv_eptz_demo.py`, `examples/eptz_simple.py`, `examples/eptz_tracking.py`,
`examples/eptz_demo.py`, and of the overlay compositing helper from
`picamera2_contrib/overlay_helper.py`, together with proofs of the specification
claims about them.

Modelling conventions:
* Python floats are modelled as exact rationals (`ℚ`).
* Python `int(q)` truncates toward zero; `pyInt` below.
* Python `n // 2` is floor division; for the positive divisor `2` it coincides
  with Lean's `Int` division `n / 2`.
* A Python `ZeroDivisionError` is modelled by returning `none`.
-/

namespace Picamera2

/-- Python `int()` applied to a rational: truncation toward zero
(floor for nonnegative arguments, ceiling for negative ones). -/
def pyInt (q : ℚ) : ℤ := if 0 ≤ q then ⌊q⌋ else ⌈q⌉

/-- `calculate_crop` from `examples/eptz_recording.py` (lines 27-69).
Arguments mirror the Python signature: `sensor_size`, `output_size` are pairs
`(width, height)`; `zoom`, `pan_x`, `pan_y` are floats (modelled as `ℚ`).
Returns the `(x, y, width, height)` ScalerCrop tuple, or `none` where the
Python code would raise `ZeroDivisionError`. -/
def eptzRecording.calculate_crop (sensor_size output_size : ℤ × ℤ)
    (zoom pan_x pan_y : ℚ) : Option (ℤ × ℤ × ℤ × ℤ) :=
  let sensor_width := sensor_size.1
  let sensor_height := sensor_size.2
  let output_width := output_size.1
  let output_height := output_size.2
  if output_height = 0 then none else
  let output_aspect : ℚ := (output_width : ℚ) / (output_height : ℚ)
  if zoom = 0 then none else
  let crop_width := pyInt ((sensor_width : ℚ) / zoom)
  let crop_height := pyInt ((sensor_height : ℚ) / zoom)
  if crop_height = 0 then none else
  -- `if crop_width / crop_height > output_aspect: crop_width = int(crop_height * output_aspect)`
  -- `else: crop_height = int(crop_width / output_aspect)`
  let wh : Option (ℤ × ℤ) :=
    if output_aspect < (crop_width : ℚ) / (crop_height : ℚ) then
      some (pyInt ((crop_height : ℚ) * output_aspect), crop_height)
    else if output_aspect = 0 then none
    else some (crop_width, pyInt ((crop_width : ℚ) / output_aspect))
  match wh with
  | none => none
  | some (crop_width, crop_height) =>
    let x := pyInt (((sensor_width - crop_width : ℤ) : ℚ) * pan_x)
    let y := pyInt (((sensor_height - crop_height : ℤ) : ℚ) * pan_y)
    -- ensure even values
    let x := 2 * (x / 2)
    let y := 2 * (y / 2)
    let crop_width := 2 * (crop_width / 2)
    let crop_height := 2 * (crop_height / 2)
    -- clamp to valid range
    let x := max 0 (min x (sensor_width - crop_width))
    let y := max 0 (min y (sensor_height - crop_height))
    some (x, y, crop_width, crop_height)

/-- `calculate_crop` from `examples/fpv_eptz_demo.py` (lines 19-61).
Takes the four sizes as separate arguments, as in the Python signature.
Branches on the sensor aspect ratio (not the truncated crop aspect ratio)
and performs no final clamping. -/
def fpvEptzDemo.calculate_crop (sensor_width sensor_height output_width output_height : ℤ)
    (zoom_factor pan_x pan_y : ℚ) : Option (ℤ × ℤ × ℤ × ℤ) :=
  if output_height = 0 then none else
  let output_aspect : ℚ := (output_width : ℚ) / (output_height : ℚ)
  if sensor_height = 0 then none else
  let sensor_aspect : ℚ := (sensor_width : ℚ) / (sensor_height : ℚ)
  if zoom_factor = 0 then none else
  let crop_width := pyInt ((sensor_width : ℚ) / zoom_factor)
  let crop_height := pyInt ((sensor_height : ℚ) / zoom_factor)
  -- `if output_aspect > sensor_aspect: crop_height = int(crop_width / output_aspect)`
  -- `else: crop_width = int(crop_height * output_aspect)`
  let wh : Option (ℤ × ℤ) :=
    if sensor_aspect < output_aspect then
      if output_aspect = 0 then none
      else some (crop_width, pyInt ((crop_width : ℚ) / output_aspect))
    else some (pyInt ((crop_height : ℚ) * output_aspect), crop_height)
  match wh with
  | none => none
  | some (crop_width, crop_height) =>
    let max_x := sensor_width - crop_width
    let max_y := sensor_height - crop_height
    let x := pyInt ((max_x : ℚ) * pan_x)
    let y := pyInt ((max_y : ℚ) * pan_y)
    -- ensure even values
    let x := 2 * (x / 2)
    let y := 2 * (y / 2)
    let crop_width := 2 * (crop_width / 2)
    let crop_height := 2 * (crop_height / 2)
    some (x, y, crop_width, crop_height)

/-- The crop tuple computed (and returned) by `set_crop` from
`examples/eptz_simple.py` (lines 42-83). The sensor and output sizes are the
script's module-level globals, passed here as arguments. The side effect
(`picam2.set_controls`) is outside the model; the function's value is the
`crop` tuple the Python function returns. -/
def eptzSimple.set_crop (sensor_width sensor_height output_width output_height : ℤ)
    (zoom_factor pan_x pan_y : ℚ) : Option (ℤ × ℤ × ℤ × ℤ) :=
  if zoom_factor = 0 then none else
  let crop_width := pyInt ((sensor_width : ℚ) / zoom_factor)
  let crop_height := pyInt ((sensor_height : ℚ) / zoom_factor)
  if output_height = 0 then none else
  let output_aspect : ℚ := (output_width : ℚ) / (output_height : ℚ)
  if crop_height = 0 then none else
  let crop_aspect : ℚ := (crop_width : ℚ) / (crop_height : ℚ)
  -- `if crop_aspect > output_aspect: crop_width = int(crop_height * output_aspect)`
  -- `else: crop_height = int(crop_width / output_aspect)`
  let wh : Option (ℤ × ℤ) :=
    if output_aspect < crop_aspect then
      some (pyInt ((crop_height : ℚ) * output_aspect), crop_height)
    else if output_aspect = 0 then none
    else some (crop_width, pyInt ((crop_width : ℚ) / output_aspect))
  match wh with
  | none => none
  | some (crop_width, crop_height) =>
    let x := pyInt (((sensor_width - crop_width : ℤ) : ℚ) * pan_x)
    let y := pyInt (((sensor_height - crop_height : ℤ) : ℚ) * pan_y)
    -- ensure even values
    let x := 2 * (x / 2)
    let y := 2 * (y / 2)
    let crop_width := 2 * (crop_width / 2)
    let crop_height := 2 * (crop_height / 2)
    some (x, y, crop_width, crop_height)

/-- `ObjectTracker.calculate_crop` from `examples/eptz_tracking.py` (lines 58-87).
`self.sensor_width`, `self.sensor_height` and `self.output_size` are passed as
arguments; the body is the same computation as `eptzRecording.calculate_crop`. -/
def eptzTracking.calculate_crop (sensor_width sensor_height : ℤ) (output_size : ℤ × ℤ)
    (zoom pan_x pan_y : ℚ) : Option (ℤ × ℤ × ℤ × ℤ) :=
  let output_width := output_size.1
  let output_height := output_size.2
  if output_height = 0 then none else
  let output_aspect : ℚ := (output_width : ℚ) / (output_height : ℚ)
  if zoom = 0 then none else
  let crop_width := pyInt ((sensor_width : ℚ) / zoom)
  let crop_height := pyInt ((sensor_height : ℚ) / zoom)
  if crop_height = 0 then none else
  let wh : Option (ℤ × ℤ) :=
    if output_aspect < (crop_width : ℚ) / (crop_height : ℚ) then
      some (pyInt ((crop_height : ℚ) * output_aspect), crop_height)
    else if output_aspect = 0 then none
    else some (crop_width, pyInt ((crop_width : ℚ) / output_aspect))
  match wh with
  | none => none
  | some (crop_width, crop_height) =>
    let x := pyInt (((sensor_width - crop_width : ℤ) : ℚ) * pan_x)
    let y := pyInt (((sensor_height - crop_height : ℤ) : ℚ) * pan_y)
    let x := 2 * (x / 2)
    let y := 2 * (y / 2)
    let crop_width := 2 * (crop_width / 2)
    let crop_height := 2 * (crop_height / 2)
    let x := max 0 (min x (sensor_width - crop_width))
    let y := max 0 (min y (sensor_height - crop_height))
    some (x, y, crop_width, crop_height)

/-- `EPTZController.calculate_crop` from `examples/eptz_demo.py` (lines 76-119).
`self.sensor_width`, `self.sensor_height`, `self.output_size`, `self.zoom_factor`,
`self.pan_x`, `self.pan_y` are passed as arguments. Branches on the sensor
aspect ratio, additionally clamps the crop size to the sensor size, and clamps
the position at the end. -/
def eptzDemo.calculate_crop (sensor_width sensor_height : ℤ) (output_size : ℤ × ℤ)
    (zoom_factor pan_x pan_y : ℚ) : Option (ℤ × ℤ × ℤ × ℤ) :=
  let output_width := output_size.1
  let output_height := output_size.2
  if output_height = 0 then none else
  let output_aspect : ℚ := (output_width : ℚ) / (output_height : ℚ)
  if sensor_height = 0 then none else
  let sensor_aspect : ℚ := (sensor_width : ℚ) / (sensor_height : ℚ)
  if zoom_factor = 0 then none else
  let crop_width := pyInt ((sensor_width : ℚ) / zoom_factor)
  let crop_height := pyInt ((sensor_height : ℚ) / zoom_factor)
  let wh : Option (ℤ × ℤ) :=
    if sensor_aspect < output_aspect then
      if output_aspect = 0 then none
      else some (crop_width, pyInt ((crop_width : ℚ) / output_aspect))
    else some (pyInt ((crop_height : ℚ) * output_aspect), crop_height)
  match wh with
  | none => none
  | some (crop_width, crop_height) =>
    -- ensure crop does not exceed sensor bounds
    let crop_width := min crop_width sensor_width
    let crop_height := min crop_height sensor_height
    let max_x := sensor_width - crop_width
    let max_y := sensor_height - crop_height
    let x := pyInt ((max_x : ℚ) * pan_x)
    let y := pyInt ((max_y : ℚ) * pan_y)
    let x := 2 * (x / 2)
    let y := 2 * (y / 2)
    let crop_width := 2 * (crop_width / 2)
    let crop_height := 2 * (crop_height / 2)
    let x := max 0 (min x (sensor_width - crop_width))
    let y := max 0 (min y (sensor_height - crop_height))
    some (x, y, crop_width, crop_height)

/-! ## Common core of the crop calculators

The five reimplementations share (up to the branch condition and the final
clamp) one computation.  `cropAspect` is the aspect-ratio adjustment used by
`eptz_recording.py`, `eptz_tracking.py` and `eptz_simple.py` (branching on the
truncated crop aspect); `sensorAspectCrop` is the adjustment used by
`fpv_eptz_demo.py` and `eptz_demo.py` (branching on the sensor aspect);
`cropTail` is the shared position / even-alignment tail without the clamp.
Each is proved equal to the corresponding source embedding below — these are
proof-engineering auxiliaries, not separate models. -/

/-- Aspect-ratio adjustment branching on the truncated crop aspect. -/
def cropAspect (ow oh cw0 ch0 : ℤ) : ℤ × ℤ :=
  if (ow : ℚ) / (oh : ℚ) < (cw0 : ℚ) / (ch0 : ℚ) then
    (pyInt ((ch0 : ℚ) * ((ow : ℚ) / (oh : ℚ))), ch0)
  else (cw0, pyInt ((cw0 : ℚ) / ((ow : ℚ) / (oh : ℚ))))

/-- Aspect-ratio adjustment branching on the sensor aspect. -/
def sensorAspectCrop (sw sh ow oh cw0 ch0 : ℤ) : ℤ × ℤ :=
  if (sw : ℚ) / (sh : ℚ) < (ow : ℚ) / (oh : ℚ) then
    (cw0, pyInt ((cw0 : ℚ) / ((ow : ℚ) / (oh : ℚ))))
  else (pyInt ((ch0 : ℚ) * ((ow : ℚ) / (oh : ℚ))), ch0)

/-- Position computation, even alignment, no clamping. -/
def cropTail (sw sh : ℤ) (wh : ℤ × ℤ) (px py : ℚ) : ℤ × ℤ × ℤ × ℤ :=
  (2 * (pyInt (((sw - wh.1 : ℤ) : ℚ) * px) / 2),
   2 * (pyInt (((sh - wh.2 : ℤ) : ℚ) * py) / 2),
   2 * (wh.1 / 2), 2 * (wh.2 / 2))

/-- Position computation, even alignment, and the final clamp of
`eptz_recording.py` / `eptz_tracking.py` / `eptz_demo.py`. -/
def cropClampTail (sw sh : ℤ) (wh : ℤ × ℤ) (px py : ℚ) : ℤ × ℤ × ℤ × ℤ :=
  (max 0 (min (2 * (pyInt (((sw - wh.1 : ℤ) : ℚ) * px) / 2)) (sw - 2 * (wh.1 / 2))),
   max 0 (min (2 * (pyInt (((sh - wh.2 : ℤ) : ℚ) * py) / 2)) (sh - 2 * (wh.2 / 2))),
   2 * (wh.1 / 2), 2 * (wh.2 / 2))

/-! ## The overlay helper (`picamera2_contrib/overlay_helper.py`)

The RGBA canvas (a `height × width × 4` uint8 numpy array) is modelled as a
total function `ℤ → ℤ → Pix`; a pixel is a 4-tuple of naturals, and every
numpy store casts its value to uint8 (`% 256`).  numpy basic slicing
(`arr[a:b]`) clips nonnegative bounds to the axis length and interprets
negative bounds relative to the end; `sliceLo` / `sliceHi` implement exactly
that, so a slice assignment can never touch an index outside
`[0, len)` — the array is never reallocated or resized.
The `elements` dict is modelled as an association list with Python dict
semantics (update in place, insert at the end, delete by key).
`cv2`-dependent operations take the `CV2_AVAILABLE` flag and the external
`cv2` drawing primitive (which mutates the canvas in place) as parameters. -/

/-- An RGBA pixel value (numpy `uint8` values, kept as naturals). -/
abbrev Pix := ℕ × ℕ × ℕ × ℕ

/-- The numpy cast of an RGBA tuple to dtype uint8. -/
def toUint8 (c : Pix) : Pix := (c.1 % 256, c.2.1 % 256, c.2.2.1 % 256, c.2.2.2 % 256)

/-- Effective start of the Python slice `a:` over an axis of length `len`. -/
def sliceLo (len a : ℤ) : ℤ := if a < 0 then max 0 (len + a) else min a len

/-- Effective stop of the Python slice `:b` over an axis of length `len`. -/
def sliceHi (len b : ℤ) : ℤ := if b < 0 then max 0 (len + b) else min b len

/-- numpy slice assignment `arr[ys:ye, xs:xe] = c` on a `height × width`
RGBA array (values cast to uint8). -/
def writeSlice (height width : ℤ) (canvas : ℤ → ℤ → Pix) (ys ye xs xe : ℤ) (c : Pix) :
    ℤ → ℤ → Pix :=
  fun y x =>
    if sliceLo height ys ≤ y ∧ y < sliceHi height ye ∧
       sliceLo width xs ≤ x ∧ x < sliceHi width xe
    then toUint8 c else canvas y x

/-- `OverlayElement` from `overlay_helper.py` (lines 40-53). -/
structure OverlayElement where
  name : String
  x : ℤ
  y : ℤ
  width : ℤ
  height : ℤ
  visible : Bool
deriving DecidableEq, Repr

/-- `OverlayElement.get_bounds`. -/
def OverlayElement.get_bounds (e : OverlayElement) : ℤ × ℤ × ℤ × ℤ :=
  (e.x, e.y, e.width, e.height)

/-- The `self.elements` Python dict, as an association list. -/
abbrev ElemDict := List (String × OverlayElement)

/-- Python `name in d`. -/
def dictContains (d : ElemDict) (k : String) : Bool := d.any (fun p => p.1 == k)

/-- Python `d[name]` (as an `Option`). -/
def dictGet (d : ElemDict) (k : String) : Option OverlayElement :=
  (d.find? (fun p => p.1 == k)).map Prod.snd

/-- Python `d[name] = v`: update in place if present, append otherwise. -/
def dictSet (d : ElemDict) (k : String) (v : OverlayElement) : ElemDict :=
  if dictContains d k then d.map (fun p => if p.1 == k then (k, v) else p)
  else d ++ [(k, v)]

/-- Python `del d[name]`. -/
def dictDel (d : ElemDict) (k : String) : ElemDict := d.filter (fun p => !(p.1 == k))

/-- The state of an `OverlayHelper` instance (`overlay_helper.py`, lines 56-370).
`update_count` models `self._update_count`. -/
structure OverlayHelper where
  width : ℤ
  height : ℤ
  background_color : Pix
  overlay : ℤ → ℤ → Pix
  elements : ElemDict
  dirty_regions : List (ℤ × ℤ × ℤ × ℤ)
  update_count : ℕ

/-- `OverlayHelper.__init__` (lines 72-89): allocate the canvas and fill every
pixel with the background color (stored as uint8 by `np.array(..., dtype=np.uint8)`). -/
def OverlayHelper.init (width height : ℤ) (background_color : Pix) : OverlayHelper :=
  { width := width
    height := height
    background_color := toUint8 background_color
    overlay := fun _ _ => toUint8 background_color
    elements := []
    dirty_regions := []
    update_count := 0 }

/-- `OverlayHelper._clear_region` (lines 91-99). -/
def OverlayHelper._clear_region (s : OverlayHelper) (x y width height : ℤ) : OverlayHelper :=
  let x1 := max 0 x
  let y1 := max 0 y
  let x2 := min s.width (x + width)
  let y2 := min s.height (y + height)
  if x1 < x2 ∧ y1 < y2 then
    { s with overlay := writeSlice s.height s.width s.overlay y1 y2 x1 x2 s.background_color }
  else s

/-- `OverlayHelper._mark_dirty` (lines 101-103). -/
def OverlayHelper._mark_dirty (s : OverlayHelper) (x y width height : ℤ) : OverlayHelper :=
  { s with dirty_regions := s.dirty_regions ++ [(x, y, width, height)] }

/-- `OverlayHelper.clear_dirty_regions` (lines 105-109). -/
def OverlayHelper.clear_dirty_regions (s : OverlayHelper) : OverlayHelper :=
  let s' := s.dirty_regions.foldl
    (fun acc r => acc._clear_region r.1 r.2.1 r.2.2.1 r.2.2.2) s
  { s' with dirty_regions := [] }

/-- `OverlayHelper.clear_all` (lines 111-115): `self.overlay[:] = self.background_color`. -/
def OverlayHelper.clear_all (s : OverlayHelper) : OverlayHelper :=
  { s with
    overlay := writeSlice s.height s.width s.overlay 0 s.height 0 s.width s.background_color
    dirty_regions := []
    update_count := s.update_count + 1 }

/-- `OverlayHelper.add_rectangle` (lines 117-159). -/
def OverlayHelper.add_rectangle (s : OverlayHelper) (name : String) (x y width height : ℤ)
    (color : Pix) (filled : Bool) (thickness : ℤ) : OverlayHelper :=
  -- mark old position as dirty if updating
  let s := match dictGet s.elements name with
    | some old => s._mark_dirty old.x old.y old.width old.height
    | none => s
  -- store element info
  let s := { s with elements := dictSet s.elements name ⟨name, x, y, width, height, true⟩ }
  let x1 := max 0 x
  let y1 := max 0 y
  let x2 := min s.width (x + width)
  let y2 := min s.height (y + height)
  let s :=
    if filled then
      { s with overlay := writeSlice s.height s.width s.overlay y1 y2 x1 x2 color }
    else
      let t := thickness
      let o1 := writeSlice s.height s.width s.overlay y1 (y1 + t) x1 x2 color  -- top
      let o2 := writeSlice s.height s.width o1 (y2 - t) y2 x1 x2 color        -- bottom
      let o3 := writeSlice s.height s.width o2 y1 y2 x1 (x1 + t) color        -- left
      let o4 := writeSlice s.height s.width o3 y1 y2 (x2 - t) x2 color        -- right
      { s with overlay := o4 }
  { s with update_count := s.update_count + 1 }

/-- `OverlayHelper.add_line` (lines 161-200).  `cv2_available` models the
module flag `CV2_AVAILABLE`; `cv2_line` models the in-place canvas mutation
performed by `cv2.line(self.overlay, (x1,y1), (x2,y2), color, thickness,
cv2.LINE_AA)`. -/
def OverlayHelper.add_line (s : OverlayHelper) (cv2_available : Bool)
    (cv2_line : (ℤ → ℤ → Pix) → ℤ → ℤ → Pix)
    (name : String) (x1 y1 x2 y2 : ℤ) (color : Pix) (thickness : ℤ) : OverlayHelper :=
  if cv2_available = false then
    -- fallback: draw as thin rectangle; Python `a or b` yields `b` when `a == 0`
    let width := if |x2 - x1| = 0 then thickness else |x2 - x1|
    let height := if |y2 - y1| = 0 then thickness else |y2 - y1|
    s.add_rectangle name (min x1 x2) (min y1 y2) width height color true 2
  else
    let s := match dictGet s.elements name with
      | some old => s._mark_dirty old.x old.y old.width old.height
      | none => s
    let bbox_x := min x1 x2
    let bbox_y := min y1 y2
    let bbox_w := |x2 - x1| + thickness
    let bbox_h := |y2 - y1| + thickness
    let s := { s with elements := dictSet s.elements name ⟨name, bbox_x, bbox_y, bbox_w, bbox_h, true⟩ }
    let s := { s with overlay := cv2_line s.overlay }
    { s with update_count := s.update_count + 1 }

/-- `OverlayHelper.add_circle` (lines 202-239). `cv2_circle` models the
in-place mutation performed by `cv2.circle`. -/
def OverlayHelper.add_circle (s : OverlayHelper) (cv2_available : Bool)
    (cv2_circle : (ℤ → ℤ → Pix) → ℤ → ℤ → Pix)
    (name : String) (center_x center_y radius : ℤ) (color : Pix) (filled : Bool)
    (thickness : ℤ) : OverlayHelper :=
  if cv2_available = false then
    -- fallback: draw as square
    s.add_rectangle name (center_x - radius) (center_y - radius)
      (radius * 2) (radius * 2) color filled 2
  else
    let s := match dictGet s.elements name with
      | some old => s._mark_dirty old.x old.y old.width old.height
      | none => s
    let bbox_size := radius * 2 + (if !filled then thickness else 0)
    let elem : OverlayElement := ⟨name, center_x - radius, center_y - radius, bbox_size, bbox_size, true⟩
    let s := { s with elements := dictSet s.elements name elem }
    let s := { s with overlay := cv2_circle s.overlay }
    { s with update_count := s.update_count + 1 }

/-- `OverlayHelper.add_text` (lines 241-286).  `text_width`, `text_height` and
`baseline` model the values returned by `cv2.getTextSize`; `cv2_putText`
models the in-place mutation performed by `cv2.putText`. -/
def OverlayHelper.add_text (s : OverlayHelper) (cv2_available : Bool)
    (text_width text_height baseline : ℤ)
    (cv2_putText : (ℤ → ℤ → Pix) → ℤ → ℤ → Pix)
    (name : String) (x y : ℤ) : OverlayHelper :=
  if cv2_available = false then s
  else
    let s := match dictGet s.elements name with
      | some old => s._mark_dirty old.x old.y old.width old.height
      | none => s
    let elem : OverlayElement := ⟨name, x, y - text_height, text_width, text_height + baseline, true⟩
    let s := { s with elements := dictSet s.elements name elem }
    let s := { s with overlay := cv2_putText s.overlay }
    { s with update_count := s.update_count + 1 }

/-- `OverlayHelper.update_text` (lines 288-299): an alias for `add_text`. -/
def OverlayHelper.update_text (s : OverlayHelper) (cv2_available : Bool)
    (text_width text_height baseline : ℤ)
    (cv2_putText : (ℤ → ℤ → Pix) → ℤ → ℤ → Pix)
    (name : String) (x y : ℤ) : OverlayHelper :=
  s.add_text cv2_available text_width text_height baseline cv2_putText name x y

/-- `OverlayHelper.remove_element` (lines 301-315). -/
def OverlayHelper.remove_element (s : OverlayHelper) (name : String) : OverlayHelper :=
  match dictGet s.elements name with
  | some elem =>
    let s := s._clear_region elem.x elem.y elem.width elem.height
    { s with elements := dictDel s.elements name }
  | none => s

/-- `OverlayHelper.hide_element` (lines 317-331). -/
def OverlayHelper.hide_element (s : OverlayHelper) (name : String) : OverlayHelper :=
  match dictGet s.elements name with
  | some elem =>
    let s := { s with elements := dictSet s.elements name { elem with visible := false } }
    s._clear_region elem.x elem.y elem.width elem.height
  | none => s

/-- `OverlayHelper.show_element` (lines 333-347). -/
def OverlayHelper.show_element (s : OverlayHelper) (name : String) : OverlayHelper :=
  match dictGet s.elements name with
  | some elem =>
    { s with elements := dictSet s.elements name { elem with visible := true } }
  | none => s

/-- `OverlayHelper.get_array` (lines 349-356): `return self.overlay`.
The returned value is the canvas field itself (no copy is taken), and the
helper state after the call is unchanged; the pair records both facts. -/
def OverlayHelper.get_array (s : OverlayHelper) : ((ℤ → ℤ → Pix) × OverlayHelper) :=
  (s.overlay, s)

/-- The region of the canvas a field-update may touch: the in-bounds pixels. -/
def inCanvas (s : OverlayHelper) (y x : ℤ) : Prop :=
  0 ≤ y ∧ y < s.height ∧ 0 ≤ x ∧ x < s.width

/-- `s'` has the same shape as `s`: the construction-time fields `width`,
`height`, `background_color` are unchanged and no pixel outside the canvas
bounds was touched (the buffer was neither reallocated nor resized). -/
def preservesShape (s s' : OverlayHelper) : Prop :=
  s'.width = s.width ∧ s'.height = s.height ∧
  s'.background_color = s.background_color ∧
  ∀ y x : ℤ, ¬ inCanvas s y x → s'.overlay y x = s.overlay y x

/-- All four channels of a pixel are valid uint8 values. -/
def pixIsUint8 (c : Pix) : Prop := c.1 < 256 ∧ c.2.1 < 256 ∧ c.2.2.1 < 256 ∧ c.2.2.2 < 256

/-- Every pixel of the canvas holds valid uint8 values (the dtype invariant). -/
def canvasUint8 (canvas : ℤ → ℤ → Pix) : Prop := ∀ y x : ℤ, pixIsUint8 (canvas y x)

/-! ## Basic facts about `pyInt` and even alignment -/

theorem pyInt_of_nonneg {q : ℚ} (h : 0 ≤ q) : pyInt q = ⌊q⌋ := if_pos h

theorem pyInt_nonneg {q : ℚ} (h : 0 ≤ q) : 0 ≤ pyInt q := by
  rw [pyInt_of_nonneg h]
  exact Int.le_floor.mpr (by exact_mod_cast h)

theorem pyInt_cast_le {q : ℚ} (h : 0 ≤ q) : (pyInt q : ℚ) ≤ q := by
  rw [pyInt_of_nonneg h]; exact Int.floor_le q

theorem lt_pyInt_add_one {q : ℚ} (h : 0 ≤ q) : q < pyInt q + 1 := by
  rw [pyInt_of_nonneg h]; exact_mod_cast Int.lt_floor_add_one q

theorem pyInt_le_int {q : ℚ} {n : ℤ} (h : 0 ≤ q) (hn : q ≤ (n : ℚ)) : pyInt q ≤ n := by
  rw [pyInt_of_nonneg h]
  calc ⌊q⌋ ≤ ⌊(n : ℚ)⌋ := Int.floor_le_floor hn
    _ = n := Int.floor_intCast n

theorem pyInt_lt_int {q : ℚ} {n : ℤ} (h : 0 ≤ q) (hn : q < (n : ℚ)) : pyInt q < n := by
  rw [pyInt_of_nonneg h]; exact Int.floor_lt.mpr hn

theorem pyInt_mono {p q : ℚ} (h : 0 ≤ p) (hpq : p ≤ q) : pyInt p ≤ pyInt q := by
  rw [pyInt_of_nonneg h, pyInt_of_nonneg (h.trans hpq)]
  exact Int.floor_le_floor hpq

theorem evenFloor_even (n : ℤ) : Even (2 * (n / 2)) := ⟨n / 2, two_mul _⟩

/-! ## Structural lemmas for the crop calculators

Throughout, the hypotheses are those of the claims: positive sensor and
output sizes, zoom factor at least `1`, pan coordinates in `[0, 1]`. -/

theorem cropDim_nonneg {s : ℤ} {z : ℚ} (hs : 0 < s) (hz : 1 ≤ z) :
    0 ≤ pyInt ((s : ℚ) / z) := by
  have hz0 : (0 : ℚ) < z := lt_of_lt_of_le one_pos hz
  exact pyInt_nonneg (div_nonneg (by exact_mod_cast hs.le) hz0.le)

theorem cropDim_le {s : ℤ} {z : ℚ} (hs : 0 < s) (hz : 1 ≤ z) :
    pyInt ((s : ℚ) / z) ≤ s := by
  have hz0 : (0 : ℚ) < z := lt_of_lt_of_le one_pos hz
  have hsQ : (0 : ℚ) ≤ (s : ℚ) := by exact_mod_cast hs.le
  refine pyInt_le_int (div_nonneg hsQ hz0.le) ?_
  rw [div_le_iff₀ hz0]
  nlinarith

/-- Bounds on the aspect step of `eptz_recording.py` / `eptz_tracking.py` /
`eptz_simple.py`: it only shrinks the crop, and keeps it nonnegative. -/
theorem cropAspect_bounds {ow oh cw0 ch0 : ℤ} (how : 0 < ow) (hoh : 0 < oh)
    (hcw : 0 ≤ cw0) (hch : 0 < ch0) :
    0 ≤ (cropAspect ow oh cw0 ch0).1 ∧ (cropAspect ow oh cw0 ch0).1 ≤ cw0 ∧
    0 ≤ (cropAspect ow oh cw0 ch0).2 ∧ (cropAspect ow oh cw0 ch0).2 ≤ ch0 := by
  have hoa : (0 : ℚ) < (ow : ℚ) / (oh : ℚ) := by
    apply div_pos <;> exact_mod_cast ‹_›
  have hchQ : (0 : ℚ) < (ch0 : ℚ) := by exact_mod_cast hch
  have hcwQ : (0 : ℚ) ≤ (cw0 : ℚ) := by exact_mod_cast hcw
  unfold cropAspect
  by_cases hbr : (ow : ℚ) / (oh : ℚ) < (cw0 : ℚ) / (ch0 : ℚ)
  · rw [if_pos hbr]
    have hmul : (0 : ℚ) ≤ (ch0 : ℚ) * ((ow : ℚ) / (oh : ℚ)) := by positivity
    refine ⟨pyInt_nonneg hmul, ?_, hch.le, le_refl _⟩
    refine le_of_lt (pyInt_lt_int hmul ?_)
    calc (ch0 : ℚ) * ((ow : ℚ) / (oh : ℚ)) < (ch0 : ℚ) * ((cw0 : ℚ) / (ch0 : ℚ)) := by
          exact mul_lt_mul_of_pos_left hbr hchQ
      _ = (cw0 : ℚ) := by field_simp
  · rw [if_neg hbr]
    push_neg at hbr
    have hdiv : (0 : ℚ) ≤ (cw0 : ℚ) / ((ow : ℚ) / (oh : ℚ)) := by positivity
    refine ⟨hcw, le_refl _, pyInt_nonneg hdiv, pyInt_le_int hdiv ?_⟩
    rw [div_le_iff₀ hoa]
    calc (cw0 : ℚ) = (ch0 : ℚ) * ((cw0 : ℚ) / (ch0 : ℚ)) := by field_simp
      _ ≤ (ch0 : ℚ) * ((ow : ℚ) / (oh : ℚ)) := mul_le_mul_of_nonneg_left hbr hchQ.le

/-- Bounds on the aspect step of `fpv_eptz_demo.py` / `eptz_demo.py`: the
resulting crop fits inside the sensor. -/
theorem sensorAspectCrop_bounds {sw sh ow oh : ℤ} {z : ℚ} (hsw : 0 < sw) (hsh : 0 < sh)
    (how : 0 < ow) (hoh : 0 < oh) (hz : 1 ≤ z) :
    0 ≤ (sensorAspectCrop sw sh ow oh (pyInt ((sw : ℚ) / z)) (pyInt ((sh : ℚ) / z))).1 ∧
    (sensorAspectCrop sw sh ow oh (pyInt ((sw : ℚ) / z)) (pyInt ((sh : ℚ) / z))).1 ≤ sw ∧
    0 ≤ (sensorAspectCrop sw sh ow oh (pyInt ((sw : ℚ) / z)) (pyInt ((sh : ℚ) / z))).2 ∧
    (sensorAspectCrop sw sh ow oh (pyInt ((sw : ℚ) / z)) (pyInt ((sh : ℚ) / z))).2 ≤ sh := by
  have hoa : (0 : ℚ) < (ow : ℚ) / (oh : ℚ) := by
    apply div_pos <;> exact_mod_cast ‹_›
  have hsa : (0 : ℚ) < (sw : ℚ) / (sh : ℚ) := by
    apply div_pos <;> exact_mod_cast ‹_›
  have hswQ : (0 : ℚ) < (sw : ℚ) := by exact_mod_cast hsw
  have hshQ : (0 : ℚ) < (sh : ℚ) := by exact_mod_cast hsh
  have hcw0 : 0 ≤ pyInt ((sw : ℚ) / z) := cropDim_nonneg hsw hz
  have hch0 : 0 ≤ pyInt ((sh : ℚ) / z) := cropDim_nonneg hsh hz
  have hcwle : pyInt ((sw : ℚ) / z) ≤ sw := cropDim_le hsw hz
  have hchle : pyInt ((sh : ℚ) / z) ≤ sh := cropDim_le hsh hz
  unfold sensorAspectCrop
  by_cases hbr : (sw : ℚ) / (sh : ℚ) < (ow : ℚ) / (oh : ℚ)
  · rw [if_pos hbr]
    have hdiv : (0 : ℚ) ≤ (pyInt ((sw : ℚ) / z) : ℚ) / ((ow : ℚ) / (oh : ℚ)) := by
      apply div_nonneg _ hoa.le
      exact_mod_cast hcw0
    refine ⟨hcw0, hcwle, pyInt_nonneg hdiv, le_of_lt (pyInt_lt_int hdiv ?_)⟩
    calc (pyInt ((sw : ℚ) / z) : ℚ) / ((ow : ℚ) / (oh : ℚ))
        ≤ (sw : ℚ) / ((ow : ℚ) / (oh : ℚ)) := by
          gcongr
      _ < (sh : ℚ) := by
          rw [div_lt_iff₀ hoa]
          calc (sw : ℚ) = (sh : ℚ) * ((sw : ℚ) / (sh : ℚ)) := by field_simp
            _ < (sh : ℚ) * ((ow : ℚ) / (oh : ℚ)) := mul_lt_mul_of_pos_left hbr hshQ
  · rw [if_neg hbr]
    push_neg at hbr
    have hmul : (0 : ℚ) ≤ (pyInt ((sh : ℚ) / z) : ℚ) * ((ow : ℚ) / (oh : ℚ)) := by
      apply mul_nonneg _ hoa.le
      exact_mod_cast hch0
    refine ⟨pyInt_nonneg hmul, pyInt_le_int hmul ?_, hch0, hchle⟩
    calc (pyInt ((sh : ℚ) / z) : ℚ) * ((ow : ℚ) / (oh : ℚ))
        ≤ (sh : ℚ) * ((ow : ℚ) / (oh : ℚ)) := by
          apply mul_le_mul_of_nonneg_right _ hoa.le
          exact_mod_cast hchle
      _ ≤ (sh : ℚ) * ((sw : ℚ) / (sh : ℚ)) := mul_le_mul_of_nonneg_left hbr hshQ.le
      _ = (sw : ℚ) := by field_simp

/-- Everything the position / even-alignment tail guarantees when the crop
fits in the sensor and the pan coordinates are normalized: even components,
nonnegative position, and the crop staying inside the sensor. -/
theorem cropTail_spec {sw sh w1 h1 : ℤ} {px py : ℚ}
    (hw0 : 0 ≤ w1) (hws : w1 ≤ sw) (hh0 : 0 ≤ h1) (hhs : h1 ≤ sh)
    (hpx0 : 0 ≤ px) (hpx1 : px ≤ 1) (hpy0 : 0 ≤ py) (hpy1 : py ≤ 1) :
    Even (cropTail sw sh (w1, h1) px py).1 ∧
    Even (cropTail sw sh (w1, h1) px py).2.1 ∧
    Even (cropTail sw sh (w1, h1) px py).2.2.1 ∧
    Even (cropTail sw sh (w1, h1) px py).2.2.2 ∧
    0 ≤ (cropTail sw sh (w1, h1) px py).1 ∧
    0 ≤ (cropTail sw sh (w1, h1) px py).2.1 ∧
    (cropTail sw sh (w1, h1) px py).1 + (cropTail sw sh (w1, h1) px py).2.2.1 ≤ sw ∧
    (cropTail sw sh (w1, h1) px py).2.1 + (cropTail sw sh (w1, h1) px py).2.2.2 ≤ sh := by
  have hswQ : (0 : ℚ) ≤ ((sw - w1 : ℤ) : ℚ) := by exact_mod_cast sub_nonneg.mpr hws
  have hshQ : (0 : ℚ) ≤ ((sh - h1 : ℤ) : ℚ) := by exact_mod_cast sub_nonneg.mpr hhs
  have hx0 : 0 ≤ pyInt (((sw - w1 : ℤ) : ℚ) * px) := pyInt_nonneg (mul_nonneg hswQ hpx0)
  have hy0 : 0 ≤ pyInt (((sh - h1 : ℤ) : ℚ) * py) := pyInt_nonneg (mul_nonneg hshQ hpy0)
  have hx1 : pyInt (((sw - w1 : ℤ) : ℚ) * px) ≤ sw - w1 := by
    refine pyInt_le_int (mul_nonneg hswQ hpx0) ?_
    calc ((sw - w1 : ℤ) : ℚ) * px ≤ ((sw - w1 : ℤ) : ℚ) * 1 :=
          mul_le_mul_of_nonneg_left hpx1 hswQ
      _ = ((sw - w1 : ℤ) : ℚ) := mul_one _
  have hy1 : pyInt (((sh - h1 : ℤ) : ℚ) * py) ≤ sh - h1 := by
    refine pyInt_le_int (mul_nonneg hshQ hpy0) ?_
    calc ((sh - h1 : ℤ) : ℚ) * py ≤ ((sh - h1 : ℤ) : ℚ) * 1 :=
          mul_le_mul_of_nonneg_left hpy1 hshQ
      _ = ((sh - h1 : ℤ) : ℚ) := mul_one _
  refine ⟨evenFloor_even _, evenFloor_even _, evenFloor_even _, evenFloor_even _, ?_, ?_, ?_, ?_⟩
  all_goals simp only [cropTail]
  · omega
  · omega
  · omega
  · omega

/-- Under the claims' hypotheses the final clamp of `eptz_recording.py` is the
identity. -/
theorem clamp_eq_self {sw x w : ℤ} (h0 : 0 ≤ x) (hxw : x + w ≤ sw) :
    max 0 (min x (sw - w)) = x := by omega

/-- When the crop fits in the sensor and the pan coordinates are normalized,
the clamped tail agrees with the unclamped one. -/
theorem cropClampTail_eq_cropTail {sw sh : ℤ} {wh : ℤ × ℤ} {px py : ℚ}
    (hw0 : 0 ≤ wh.1) (hws : wh.1 ≤ sw) (hh0 : 0 ≤ wh.2) (hhs : wh.2 ≤ sh)
    (hpx0 : 0 ≤ px) (hpx1 : px ≤ 1) (hpy0 : 0 ≤ py) (hpy1 : py ≤ 1) :
    cropClampTail sw sh wh px py = cropTail sw sh wh px py := by
  obtain ⟨-, -, -, -, hx0, hy0, hxw, hyh⟩ :=
    @cropTail_spec sw sh wh.1 wh.2 px py hw0 hws hh0 hhs hpx0 hpx1 hpy0 hpy1
  simp only [cropTail] at hx0 hy0 hxw hyh
  simp only [cropClampTail, cropTail]
  rw [clamp_eq_self hx0 hxw, clamp_eq_self hy0 hyh]

/-! ### Each source function, rewritten through the shared core -/

theorem recording_eq_clamp {sw sh ow oh : ℤ} {z px py : ℚ}
    (hoh : oh ≠ 0) (hz : z ≠ 0) (hch : pyInt ((sh : ℚ) / z) ≠ 0)
    (hoa : (ow : ℚ) / (oh : ℚ) ≠ 0) :
    eptzRecording.calculate_crop (sw, sh) (ow, oh) z px py =
      some (cropClampTail sw sh
        (cropAspect ow oh (pyInt ((sw : ℚ) / z)) (pyInt ((sh : ℚ) / z))) px py) := by
  unfold eptzRecording.calculate_crop cropAspect
  simp only [if_neg hoh, if_neg hz, if_neg hch]
  by_cases hbr : (ow : ℚ) / (oh : ℚ) <
      (pyInt ((sw : ℚ) / z) : ℚ) / (pyInt ((sh : ℚ) / z) : ℚ)
  · simp only [if_pos hbr]; rfl
  · simp only [if_neg hbr, if_neg hoa]; rfl

theorem recording_eq_none {sw sh ow oh : ℤ} {z px py : ℚ}
    (hoh : oh ≠ 0) (hz : z ≠ 0) (hch : pyInt ((sh : ℚ) / z) = 0) :
    eptzRecording.calculate_crop (sw, sh) (ow, oh) z px py = none := by
  unfold eptzRecording.calculate_crop
  simp only [if_neg hoh, if_neg hz, if_pos hch]

theorem simple_eq_tail {sw sh ow oh : ℤ} {z px py : ℚ}
    (hoh : oh ≠ 0) (hz : z ≠ 0) (hch : pyInt ((sh : ℚ) / z) ≠ 0)
    (hoa : (ow : ℚ) / (oh : ℚ) ≠ 0) :
    eptzSimple.set_crop sw sh ow oh z px py =
      some (cropTail sw sh
        (cropAspect ow oh (pyInt ((sw : ℚ) / z)) (pyInt ((sh : ℚ) / z))) px py) := by
  unfold eptzSimple.set_crop cropAspect
  simp only [if_neg hz, if_neg hoh, if_neg hch]
  by_cases hbr : (ow : ℚ) / (oh : ℚ) <
      (pyInt ((sw : ℚ) / z) : ℚ) / (pyInt ((sh : ℚ) / z) : ℚ)
  · simp only [if_pos hbr]; rfl
  · simp only [if_neg hbr, if_neg hoa]; rfl

theorem simple_eq_none {sw sh ow oh : ℤ} {z px py : ℚ}
    (hoh : oh ≠ 0) (hz : z ≠ 0) (hch : pyInt ((sh : ℚ) / z) = 0) :
    eptzSimple.set_crop sw sh ow oh z px py = none := by
  unfold eptzSimple.set_crop
  simp only [if_neg hz, if_neg hoh, if_pos hch]

theorem tracking_eq_recording (sw sh : ℤ) (output_size : ℤ × ℤ) (z px py : ℚ) :
    eptzTracking.calculate_crop sw sh output_size z px py =
      eptzRecording.calculate_crop (sw, sh) output_size z px py := rfl

theorem fpv_eq_tail {sw sh ow oh : ℤ} {z px py : ℚ}
    (hoh : oh ≠ 0) (hsh : sh ≠ 0) (hz : z ≠ 0)
    (hoa : (ow : ℚ) / (oh : ℚ) ≠ 0) :
    fpvEptzDemo.calculate_crop sw sh ow oh z px py =
      some (cropTail sw sh
        (sensorAspectCrop sw sh ow oh (pyInt ((sw : ℚ) / z)) (pyInt ((sh : ℚ) / z))) px py) := by
  unfold fpvEptzDemo.calculate_crop sensorAspectCrop
  simp only [if_neg hoh, if_neg hsh, if_neg hz]
  by_cases hbr : (sw : ℚ) / (sh : ℚ) < (ow : ℚ) / (oh : ℚ)
  · simp only [if_pos hbr, if_neg hoa]; rfl
  · simp only [if_neg hbr]; rfl

theorem demo_eq_clamp {sw sh ow oh : ℤ} {z px py : ℚ}
    (hoh : oh ≠ 0) (hsh : sh ≠ 0) (hz : z ≠ 0)
    (hoa : (ow : ℚ) / (oh : ℚ) ≠ 0) :
    eptzDemo.calculate_crop sw sh (ow, oh) z px py =
      some (cropClampTail sw sh
        (min (sensorAspectCrop sw sh ow oh (pyInt ((sw : ℚ) / z)) (pyInt ((sh : ℚ) / z))).1 sw,
         min (sensorAspectCrop sw sh ow oh (pyInt ((sw : ℚ) / z)) (pyInt ((sh : ℚ) / z))).2 sh)
        px py) := by
  unfold eptzDemo.calculate_crop sensorAspectCrop
  simp only [if_neg hoh, if_neg hsh, if_neg hz]
  by_cases hbr : (sw : ℚ) / (sh : ℚ) < (ow : ℚ) / (oh : ℚ)
  · simp only [if_pos hbr, if_neg hoa]; rfl
  · simp only [if_neg hbr]; rfl

/-! ### Characterizations under the claims' hypotheses -/

theorem recording_char {sw sh ow oh : ℤ} {z px py : ℚ} {r : ℤ × ℤ × ℤ × ℤ}
    (hsw : 0 < sw) (hsh : 0 < sh) (how : 0 < ow) (hoh : 0 < oh) (hz : 1 ≤ z)
    (hr : eptzRecording.calculate_crop (sw, sh) (ow, oh) z px py = some r) :
    pyInt ((sh : ℚ) / z) ≠ 0 ∧
    r = cropClampTail sw sh
      (cropAspect ow oh (pyInt ((sw : ℚ) / z)) (pyInt ((sh : ℚ) / z))) px py := by
  have hohne : oh ≠ 0 := by omega
  have hzne : z ≠ 0 := by
    intro h; rw [h] at hz; norm_num at hz
  have hoa : ((ow : ℚ) / (oh : ℚ)) ≠ 0 := by
    have : (0 : ℚ) < (ow : ℚ) / (oh : ℚ) := by
      apply div_pos <;> exact_mod_cast ‹_›
    exact this.ne'
  by_cases hch : pyInt ((sh : ℚ) / z) = 0
  · rw [recording_eq_none hohne hzne hch] at hr; exact absurd hr (by simp)
  · rw [recording_eq_clamp hohne hzne hch hoa] at hr
    exact ⟨hch, (Option.some.inj hr).symm⟩

theorem simple_char {sw sh ow oh : ℤ} {z px py : ℚ} {r : ℤ × ℤ × ℤ × ℤ}
    (hsw : 0 < sw) (hsh : 0 < sh) (how : 0 < ow) (hoh : 0 < oh) (hz : 1 ≤ z)
    (hr : eptzSimple.set_crop sw sh ow oh z px py = some r) :
    pyInt ((sh : ℚ) / z) ≠ 0 ∧
    r = cropTail sw sh
      (cropAspect ow oh (pyInt ((sw : ℚ) / z)) (pyInt ((sh : ℚ) / z))) px py := by
  have hohne : oh ≠ 0 := by omega
  have hzne : z ≠ 0 := by
    intro h; rw [h] at hz; norm_num at hz
  have hoa : ((ow : ℚ) / (oh : ℚ)) ≠ 0 := by
    have : (0 : ℚ) < (ow : ℚ) / (oh : ℚ) := by
      apply div_pos <;> exact_mod_cast ‹_›
    exact this.ne'
  by_cases hch : pyInt ((sh : ℚ) / z) = 0
  · rw [simple_eq_none hohne hzne hch] at hr; exact absurd hr (by simp)
  · rw [simple_eq_tail hohne hzne hch hoa] at hr
    exact ⟨hch, (Option.some.inj hr).symm⟩

theorem fpv_char {sw sh ow oh : ℤ} {z px py : ℚ} {r : ℤ × ℤ × ℤ × ℤ}
    (hsw : 0 < sw) (hsh : 0 < sh) (how : 0 < ow) (hoh : 0 < oh) (hz : 1 ≤ z)
    (hr : fpvEptzDemo.calculate_crop sw sh ow oh z px py = some r) :
    r = cropTail sw sh
      (sensorAspectCrop sw sh ow oh (pyInt ((sw : ℚ) / z)) (pyInt ((sh : ℚ) / z))) px py := by
  have hohne : oh ≠ 0 := by omega
  have hshne : sh ≠ 0 := by omega
  have hzne : z ≠ 0 := by
    intro h; rw [h] at hz; norm_num at hz
  have hoa : ((ow : ℚ) / (oh : ℚ)) ≠ 0 := by
    have : (0 : ℚ) < (ow : ℚ) / (oh : ℚ) := by
      apply div_pos <;> exact_mod_cast ‹_›
    exact this.ne'
  rw [fpv_eq_tail hohne hshne hzne hoa] at hr
  exact (Option.some.inj hr).symm

theorem demo_char {sw sh ow oh : ℤ} {z px py : ℚ} {r : ℤ × ℤ × ℤ × ℤ}
    (hsw : 0 < sw) (hsh : 0 < sh) (how : 0 < ow) (hoh : 0 < oh) (hz : 1 ≤ z)
    (hpx0 : 0 ≤ px) (hpx1 : px ≤ 1) (hpy0 : 0 ≤ py) (hpy1 : py ≤ 1)
    (hr : eptzDemo.calculate_crop sw sh (ow, oh) z px py = some r) :
    r = cropTail sw sh
      (sensorAspectCrop sw sh ow oh (pyInt ((sw : ℚ) / z)) (pyInt ((sh : ℚ) / z))) px py := by
  have hohne : oh ≠ 0 := by omega
  have hshne : sh ≠ 0 := by omega
  have hzne : z ≠ 0 := by
    intro h; rw [h] at hz; norm_num at hz
  have hoa : ((ow : ℚ) / (oh : ℚ)) ≠ 0 := by
    have : (0 : ℚ) < (ow : ℚ) / (oh : ℚ) := by
      apply div_pos <;> exact_mod_cast ‹_›
    exact this.ne'
  obtain ⟨hw0, hws, hh0, hhs⟩ := @sensorAspectCrop_bounds sw sh ow oh z hsw hsh how hoh hz
  rw [demo_eq_clamp hohne hshne hzne hoa] at hr
  rw [min_eq_left hws, min_eq_left hhs] at hr
  have := (Option.some.inj hr).symm
  rw [this]
  exact cropClampTail_eq_cropTail hw0 hws hh0 hhs hpx0 hpx1 hpy0 hpy1

/-- All the properties of the recording-variant result needed by the claims:
even components, nonnegative position, crop inside the sensor. -/
theorem recording_props {sw sh ow oh : ℤ} {z px py : ℚ} {r : ℤ × ℤ × ℤ × ℤ}
    (hsw : 0 < sw) (hsh : 0 < sh) (how : 0 < ow) (hoh : 0 < oh) (hz : 1 ≤ z)
    (hpx0 : 0 ≤ px) (hpx1 : px ≤ 1) (hpy0 : 0 ≤ py) (hpy1 : py ≤ 1)
    (hr : eptzRecording.calculate_crop (sw, sh) (ow, oh) z px py = some r) :
    Even r.1 ∧ Even r.2.1 ∧ Even r.2.2.1 ∧ Even r.2.2.2 ∧
    0 ≤ r.1 ∧ 0 ≤ r.2.1 ∧ r.1 + r.2.2.1 ≤ sw ∧ r.2.1 + r.2.2.2 ≤ sh := by
  obtain ⟨hch, hreq⟩ := recording_char hsw hsh how hoh hz hr
  have hch0 : 0 < pyInt ((sh : ℚ) / z) :=
    lt_of_le_of_ne (cropDim_nonneg hsh hz) (Ne.symm hch)
  obtain ⟨hw0, hwc, hh0, hhc⟩ := cropAspect_bounds how hoh (cropDim_nonneg hsw hz) hch0
  have hws := hwc.trans (cropDim_le hsw hz)
  have hhs := hhc.trans (cropDim_le hsh hz)
  rw [hreq, cropClampTail_eq_cropTail hw0 hws hh0 hhs hpx0 hpx1 hpy0 hpy1]
  exact cropTail_spec hw0 hws hh0 hhs hpx0 hpx1 hpy0 hpy1

/-- The same properties for the fpv variant. -/
theorem fpv_props {sw sh ow oh : ℤ} {z px py : ℚ} {r : ℤ × ℤ × ℤ × ℤ}
    (hsw : 0 < sw) (hsh : 0 < sh) (how : 0 < ow) (hoh : 0 < oh) (hz : 1 ≤ z)
    (hpx0 : 0 ≤ px) (hpx1 : px ≤ 1) (hpy0 : 0 ≤ py) (hpy1 : py ≤ 1)
    (hr : fpvEptzDemo.calculate_crop sw sh ow oh z px py = some r) :
    Even r.1 ∧ Even r.2.1 ∧ Even r.2.2.1 ∧ Even r.2.2.2 ∧
    0 ≤ r.1 ∧ 0 ≤ r.2.1 ∧ r.1 + r.2.2.1 ≤ sw ∧ r.2.1 + r.2.2.2 ≤ sh := by
  have hreq := fpv_char hsw hsh how hoh hz hr
  obtain ⟨hw0, hws, hh0, hhs⟩ := @sensorAspectCrop_bounds sw sh ow oh z hsw hsh how hoh hz
  rw [hreq]
  exact cropTail_spec hw0 hws hh0 hhs hpx0 hpx1 hpy0 hpy1

/-- The same properties for the simple variant. -/
theorem simple_props {sw sh ow oh : ℤ} {z px py : ℚ} {r : ℤ × ℤ × ℤ × ℤ}
    (hsw : 0 < sw) (hsh : 0 < sh) (how : 0 < ow) (hoh : 0 < oh) (hz : 1 ≤ z)
    (hpx0 : 0 ≤ px) (hpx1 : px ≤ 1) (hpy0 : 0 ≤ py) (hpy1 : py ≤ 1)
    (hr : eptzSimple.set_crop sw sh ow oh z px py = some r) :
    Even r.1 ∧ Even r.2.1 ∧ Even r.2.2.1 ∧ Even r.2.2.2 ∧
    0 ≤ r.1 ∧ 0 ≤ r.2.1 ∧ r.1 + r.2.2.1 ≤ sw ∧ r.2.1 + r.2.2.2 ≤ sh := by
  obtain ⟨hch, hreq⟩ := simple_char hsw hsh how hoh hz hr
  have hch0 : 0 < pyInt ((sh : ℚ) / z) :=
    lt_of_le_of_ne (cropDim_nonneg hsh hz) (Ne.symm hch)
  obtain ⟨hw0, hwc, hh0, hhc⟩ := cropAspect_bounds how hoh (cropDim_nonneg hsw hz) hch0
  have hws := hwc.trans (cropDim_le hsw hz)
  have hhs := hhc.trans (cropDim_le hsh hz)
  rw [hreq]
  exact cropTail_spec hw0 hws hh0 hhs hpx0 hpx1 hpy0 hpy1

/-! ### Approximate aspect-ratio preservation -/

/-- Aspect bound for a crop pair of the shape `(int(h * aspect), h)`. -/
theorem ratio_boundA {ow oh ch0 : ℤ} (how : 0 < ow) (hoh : 0 < oh) (hch : 0 ≤ ch0) :
    -2 * oh < 2 * (pyInt ((ch0 : ℚ) * ((ow : ℚ) / (oh : ℚ))) / 2) * oh - 2 * (ch0 / 2) * ow ∧
    2 * (pyInt ((ch0 : ℚ) * ((ow : ℚ) / (oh : ℚ))) / 2) * oh - 2 * (ch0 / 2) * ow < 2 * ow := by
  have hoa : (0 : ℚ) < (ow : ℚ) / (oh : ℚ) := by
    apply div_pos <;> exact_mod_cast ‹_›
  have hohQ : (0 : ℚ) < (oh : ℚ) := by exact_mod_cast hoh
  have hnn : (0 : ℚ) ≤ (ch0 : ℚ) * ((ow : ℚ) / (oh : ℚ)) := by
    apply mul_nonneg _ hoa.le
    exact_mod_cast hch
  set w1 := pyInt ((ch0 : ℚ) * ((ow : ℚ) / (oh : ℚ))) with hw1def
  have h1 : (w1 : ℚ) ≤ (ch0 : ℚ) * ((ow : ℚ) / (oh : ℚ)) := pyInt_cast_le hnn
  have h2 : (ch0 : ℚ) * ((ow : ℚ) / (oh : ℚ)) < (w1 : ℚ) + 1 := lt_pyInt_add_one hnn
  have key1 : w1 * oh ≤ ch0 * ow := by
    have step := mul_le_mul_of_nonneg_right h1 hohQ.le
    rw [mul_assoc, div_mul_cancel₀ _ hohQ.ne'] at step
    exact_mod_cast step
  have key2 : ch0 * ow < (w1 + 1) * oh := by
    have step := mul_lt_mul_of_pos_right h2 hohQ
    rw [mul_assoc, div_mul_cancel₀ _ hohQ.ne'] at step
    exact_mod_cast step
  set w := 2 * (w1 / 2) with hwdef
  set h := 2 * (ch0 / 2) with hhdef
  have hw : w ≤ w1 ∧ w1 ≤ w + 1 := by omega
  have hh : h ≤ ch0 ∧ ch0 ≤ h + 1 := by omega
  constructor
  · have s1 : h * ow ≤ ch0 * ow :=
      mul_le_mul_of_nonneg_right hh.1 how.le
    have s2 : (w1 + 1) * oh ≤ (w + 2) * oh :=
      mul_le_mul_of_nonneg_right (by omega) hoh.le
    linarith
  · have s1 : w * oh ≤ w1 * oh :=
      mul_le_mul_of_nonneg_right hw.1 hoh.le
    have s2 : ch0 * ow ≤ (h + 1) * ow :=
      mul_le_mul_of_nonneg_right hh.2 how.le
    linarith

/-- Aspect bound for a crop pair of the shape `(w, int(w / aspect))`. -/
theorem ratio_boundB {ow oh cw0 : ℤ} (how : 0 < ow) (hoh : 0 < oh) (hcw : 0 ≤ cw0) :
    -2 * oh < 2 * (cw0 / 2) * oh - 2 * (pyInt ((cw0 : ℚ) / ((ow : ℚ) / (oh : ℚ))) / 2) * ow ∧
    2 * (cw0 / 2) * oh - 2 * (pyInt ((cw0 : ℚ) / ((ow : ℚ) / (oh : ℚ))) / 2) * ow < 2 * ow := by
  have hoa : (0 : ℚ) < (ow : ℚ) / (oh : ℚ) := by
    apply div_pos <;> exact_mod_cast ‹_›
  have hohQ : (0 : ℚ) < (oh : ℚ) := by exact_mod_cast hoh
  have howQ : (0 : ℚ) < (ow : ℚ) := by exact_mod_cast how
  have hnn : (0 : ℚ) ≤ (cw0 : ℚ) / ((ow : ℚ) / (oh : ℚ)) := by
    apply div_nonneg _ hoa.le
    exact_mod_cast hcw
  set h1 := pyInt ((cw0 : ℚ) / ((ow : ℚ) / (oh : ℚ))) with hh1def
  have hA : (h1 : ℚ) ≤ (cw0 : ℚ) / ((ow : ℚ) / (oh : ℚ)) := pyInt_cast_le hnn
  have hB : (cw0 : ℚ) / ((ow : ℚ) / (oh : ℚ)) < (h1 : ℚ) + 1 := lt_pyInt_add_one hnn
  have key1 : h1 * ow ≤ cw0 * oh := by
    rw [le_div_iff₀ hoa] at hA
    have step := mul_le_mul_of_nonneg_right hA hohQ.le
    rw [mul_assoc, div_mul_cancel₀ _ hohQ.ne'] at step
    exact_mod_cast step
  have key2 : cw0 * oh < (h1 + 1) * ow := by
    rw [div_lt_iff₀ hoa] at hB
    have step := mul_lt_mul_of_pos_right hB hohQ
    rw [mul_assoc, div_mul_cancel₀ _ hohQ.ne'] at step
    exact_mod_cast step
  set w := 2 * (cw0 / 2) with hwdef
  set h := 2 * (h1 / 2) with hhdef
  have hw : w ≤ cw0 ∧ cw0 ≤ w + 1 := by omega
  have hh : h ≤ h1 ∧ h1 ≤ h + 1 := by omega
  constructor
  · have s1 : h * ow ≤ h1 * ow :=
      mul_le_mul_of_nonneg_right hh.1 how.le
    have s2 : cw0 * oh ≤ (w + 1) * oh :=
      mul_le_mul_of_nonneg_right hw.2 hoh.le
    linarith
  · have s1 : w * oh ≤ cw0 * oh :=
      mul_le_mul_of_nonneg_right hw.1 hoh.le
    have s2 : (h1 + 1) * ow ≤ (h + 2) * ow :=
      mul_le_mul_of_nonneg_right (by omega) how.le
    linarith

/-- The even-aligned crop of `cropAspect` preserves the output aspect ratio up
to the truncation error. -/
theorem ratio_bound_cropAspect {ow oh cw0 ch0 : ℤ} (how : 0 < ow) (hoh : 0 < oh)
    (hcw : 0 ≤ cw0) (hch : 0 ≤ ch0) :
    -2 * oh < 2 * ((cropAspect ow oh cw0 ch0).1 / 2) * oh -
        2 * ((cropAspect ow oh cw0 ch0).2 / 2) * ow ∧
    2 * ((cropAspect ow oh cw0 ch0).1 / 2) * oh -
        2 * ((cropAspect ow oh cw0 ch0).2 / 2) * ow < 2 * ow := by
  unfold cropAspect
  by_cases hbr : (ow : ℚ) / (oh : ℚ) < (cw0 : ℚ) / (ch0 : ℚ)
  · rw [if_pos hbr]
    exact ratio_boundA how hoh hch
  · rw [if_neg hbr]
    exact ratio_boundB how hoh hcw

/-- The even-aligned crop of `sensorAspectCrop` preserves the output aspect
ratio up to the truncation error. -/
theorem ratio_bound_sensorAspectCrop {sw sh ow oh cw0 ch0 : ℤ} (how : 0 < ow) (hoh : 0 < oh)
    (hcw : 0 ≤ cw0) (hch : 0 ≤ ch0) :
    -2 * oh < 2 * ((sensorAspectCrop sw sh ow oh cw0 ch0).1 / 2) * oh -
        2 * ((sensorAspectCrop sw sh ow oh cw0 ch0).2 / 2) * ow ∧
    2 * ((sensorAspectCrop sw sh ow oh cw0 ch0).1 / 2) * oh -
        2 * ((sensorAspectCrop sw sh ow oh cw0 ch0).2 / 2) * ow < 2 * ow := by
  unfold sensorAspectCrop
  by_cases hbr : (sw : ℚ) / (sh : ℚ) < (ow : ℚ) / (oh : ℚ)
  · rw [if_pos hbr]
    exact ratio_boundB how hoh hcw
  · rw [if_neg hbr]
    exact ratio_boundA how hoh hch

/-! ### Monotonicity of the position in the pan coordinates -/

theorem cropTail_mono {sw sh w1 h1 : ℤ} {px py px' py' : ℚ}
    (hws : w1 ≤ sw) (hhs : h1 ≤ sh)
    (hpx0 : 0 ≤ px) (hpy0 : 0 ≤ py) (hpx : px ≤ px') (hpy : py ≤ py') :
    (cropTail sw sh (w1, h1) px py).1 ≤ (cropTail sw sh (w1, h1) px' py').1 ∧
    (cropTail sw sh (w1, h1) px py).2.1 ≤ (cropTail sw sh (w1, h1) px' py').2.1 := by
  have hswQ : (0 : ℚ) ≤ ((sw - w1 : ℤ) : ℚ) := by exact_mod_cast sub_nonneg.mpr hws
  have hshQ : (0 : ℚ) ≤ ((sh - h1 : ℤ) : ℚ) := by exact_mod_cast sub_nonneg.mpr hhs
  have hx : pyInt (((sw - w1 : ℤ) : ℚ) * px) ≤ pyInt (((sw - w1 : ℤ) : ℚ) * px') :=
    pyInt_mono (mul_nonneg hswQ hpx0) (mul_le_mul_of_nonneg_left hpx hswQ)
  have hy : pyInt (((sh - h1 : ℤ) : ℚ) * py) ≤ pyInt (((sh - h1 : ℤ) : ℚ) * py') :=
    pyInt_mono (mul_nonneg hshQ hpy0) (mul_le_mul_of_nonneg_left hpy hshQ)
  constructor <;> simp only [cropTail] <;> omega

/-! ## Claim theorems: the ePTZ crop calculator -/

/-- C2 (counterexample): the three reimplementations are *not* identical as
functions of their inputs.  At sensor `(10, 7)`, output `(6, 5)`, zoom `3.5`,
pan `(0.5, 0.5)` — all within the claim's hypothesis range — the
`eptz_recording.py` version yields `(4, 2, 2, 0)` while the
`fpv_eptz_demo.py` version yields `(4, 2, 2, 2)`: the latter branches on the
sensor aspect ratio where the former branches on the truncated crop aspect
ratio. -/
theorem C2_fpv_differs_counterexample :
    (eptzRecording.calculate_crop (10, 7) (6, 5) (7/2) (1/2) (1/2) = some (4, 2, 2, 0) ∧
     fpvEptzDemo.calculate_crop 10 7 6 5 (7/2) (1/2) (1/2) = some (4, 2, 2, 2) ∧
     eptzRecording.calculate_crop (10, 7) (6, 5) (7/2) (1/2) (1/2) ≠
       fpvEptzDemo.calculate_crop 10 7 6 5 (7/2) (1/2) (1/2)) ∧
    (eptzRecording.calculate_crop (-10, 7) (6, 5) 2 (1/2) (1/2) = some (0, 4, -6, -4) ∧
     eptzSimple.set_crop (-10) 7 6 5 2 (1/2) (1/2) = some (-2, 4, -6, -4) ∧
     eptzRecording.calculate_crop (-10, 7) (6, 5) 2 (1/2) (1/2) ≠
       eptzSimple.set_crop (-10) 7 6 5 2 (1/2) (1/2)) := by
  refine ⟨⟨?_, ?_, ?_⟩, ⟨?_, ?_, ?_⟩⟩
  · simp only [eptzRecording.calculate_crop, pyInt]; norm_num
  · simp only [fpvEptzDemo.calculate_crop, pyInt]; norm_num
  · simp only [eptzRecording.calculate_crop, fpvEptzDemo.calculate_crop, pyInt]; norm_num
  · simp only [eptzRecording.calculate_crop, pyInt]; norm_num [Int.ceil_neg]
  · simp only [eptzSimple.set_crop, pyInt]; norm_num [Int.ceil_neg]
  · simp only [eptzRecording.calculate_crop, eptzSimple.set_crop, pyInt]
    norm_num [Int.ceil_neg]

/-- C2 (amended): for every positive sensor size, positive output size, zoom
factor ≥ 1 and pan coordinates in `[0, 1]`, the crop computed by
`calculate_crop` in `eptz_recording.py` and the crop tuple computed inside
`set_crop` in `eptz_simple.py` are equal; the `fpv_eptz_demo.py`
reimplementation differs (it branches on the sensor aspect ratio instead of
the truncated crop aspect ratio). -/
theorem C2_recording_eq_simple {sw sh ow oh : ℤ} {z px py : ℚ}
    (hsw : 0 < sw) (hsh : 0 < sh) (how : 0 < ow) (hoh : 0 < oh) (hz : 1 ≤ z)
    (hpx0 : 0 ≤ px) (hpx1 : px ≤ 1) (hpy0 : 0 ≤ py) (hpy1 : py ≤ 1) :
    eptzRecording.calculate_crop (sw, sh) (ow, oh) z px py =
      eptzSimple.set_crop sw sh ow oh z px py := by
  have hohne : oh ≠ 0 := by omega
  have hzne : z ≠ 0 := by
    intro h; rw [h] at hz; norm_num at hz
  have hoa : ((ow : ℚ) / (oh : ℚ)) ≠ 0 := by
    have : (0 : ℚ) < (ow : ℚ) / (oh : ℚ) := by
      apply div_pos <;> exact_mod_cast ‹_›
    exact this.ne'
  by_cases hch : pyInt ((sh : ℚ) / z) = 0
  · rw [recording_eq_none hohne hzne hch, simple_eq_none hohne hzne hch]
  · rw [recording_eq_clamp hohne hzne hch hoa, simple_eq_tail hohne hzne hch hoa]
    have hch0 : 0 < pyInt ((sh : ℚ) / z) :=
      lt_of_le_of_ne (cropDim_nonneg hsh hz) (Ne.symm hch)
    obtain ⟨hw0, hwc, hh0, hhc⟩ :=
      cropAspect_bounds how hoh (cropDim_nonneg hsw hz) hch0
    have hws := hwc.trans (cropDim_le hsw hz)
    have hhs := hhc.trans (cropDim_le hsh hz)
    rw [cropClampTail_eq_cropTail hw0 hws hh0 hhs hpx0 hpx1 hpy0 hpy1]

/-- Witness for C2 (amended) at sensor `4608×2592`, output `640×480`,
zoom `2`, pan `(0.5, 0.5)`. -/
theorem C2_recording_eq_simple_witness :
    eptzRecording.calculate_crop (4608, 2592) (640, 480) 2 (1/2) (1/2) =
      eptzSimple.set_crop 4608 2592 640 480 2 (1/2) (1/2) :=
  @C2_recording_eq_simple 4608 2592 640 480 2 (1/2) (1/2) (by norm_num) (by norm_num)
    (by norm_num) (by norm_num) (by norm_num) (by norm_num) (by norm_num)
    (by norm_num) (by norm_num)

/-- C3: for every positive sensor size, positive output size, zoom factor ≥ 1
and pan coordinates in `[0, 1]`, all four components of the crop rectangle
returned by the crop calculators of `eptz_recording.py`, `eptz_tracking.py`
and `eptz_simple.py` are even. -/
theorem C3_crop_components_even {sw sh ow oh : ℤ} {z px py : ℚ}
    (hsw : 0 < sw) (hsh : 0 < sh) (how : 0 < ow) (hoh : 0 < oh) (hz : 1 ≤ z)
    (hpx0 : 0 ≤ px) (hpx1 : px ≤ 1) (hpy0 : 0 ≤ py) (hpy1 : py ≤ 1) :
    (∀ r : ℤ × ℤ × ℤ × ℤ, eptzRecording.calculate_crop (sw, sh) (ow, oh) z px py = some r →
      Even r.1 ∧ Even r.2.1 ∧ Even r.2.2.1 ∧ Even r.2.2.2) ∧
    (∀ r : ℤ × ℤ × ℤ × ℤ, eptzTracking.calculate_crop sw sh (ow, oh) z px py = some r →
      Even r.1 ∧ Even r.2.1 ∧ Even r.2.2.1 ∧ Even r.2.2.2) ∧
    (∀ r : ℤ × ℤ × ℤ × ℤ, eptzSimple.set_crop sw sh ow oh z px py = some r →
      Even r.1 ∧ Even r.2.1 ∧ Even r.2.2.1 ∧ Even r.2.2.2) := by
  refine ⟨fun r hr => ?_, fun r hr => ?_, fun r hr => ?_⟩
  · obtain ⟨e1, e2, e3, e4, -⟩ :=
      recording_props hsw hsh how hoh hz hpx0 hpx1 hpy0 hpy1 hr
    exact ⟨e1, e2, e3, e4⟩
  · rw [tracking_eq_recording] at hr
    obtain ⟨e1, e2, e3, e4, -⟩ :=
      recording_props hsw hsh how hoh hz hpx0 hpx1 hpy0 hpy1 hr
    exact ⟨e1, e2, e3, e4⟩
  · obtain ⟨e1, e2, e3, e4, -⟩ :=
      simple_props hsw hsh how hoh hz hpx0 hpx1 hpy0 hpy1 hr
    exact ⟨e1, e2, e3, e4⟩

/-- Witness for C3 at sensor `4608×2592`, output `640×480`, zoom `2`,
pan `(0.5, 0.5)`, where the recording variant returns
`(1440, 648, 1728, 1296)`. -/
theorem C3_crop_components_even_witness :
    Even (1440 : ℤ) ∧ Even (648 : ℤ) ∧ Even (1728 : ℤ) ∧ Even (1296 : ℤ) :=
  (@C3_crop_components_even 4608 2592 640 480 2 (1/2) (1/2) (by norm_num) (by norm_num)
    (by norm_num) (by norm_num) (by norm_num) (by norm_num) (by norm_num)
    (by norm_num) (by norm_num)).1
    (1440, 648, 1728, 1296)
    (by simp only [eptzRecording.calculate_crop, pyInt]; norm_num)

/-- C4: for every positive sensor size, positive output size, zoom factor ≥ 1
and pan coordinates in `[0, 1]`, the crop rectangle returned by the crop
calculators of `eptz_recording.py`, `eptz_simple.py` and `fpv_eptz_demo.py`
lies within the sensor bounds. -/
theorem C4_crop_within_sensor {sw sh ow oh : ℤ} {z px py : ℚ}
    (hsw : 0 < sw) (hsh : 0 < sh) (how : 0 < ow) (hoh : 0 < oh) (hz : 1 ≤ z)
    (hpx0 : 0 ≤ px) (hpx1 : px ≤ 1) (hpy0 : 0 ≤ py) (hpy1 : py ≤ 1) :
    (∀ r : ℤ × ℤ × ℤ × ℤ, eptzRecording.calculate_crop (sw, sh) (ow, oh) z px py = some r →
      0 ≤ r.1 ∧ 0 ≤ r.2.1 ∧ r.1 + r.2.2.1 ≤ sw ∧ r.2.1 + r.2.2.2 ≤ sh) ∧
    (∀ r : ℤ × ℤ × ℤ × ℤ, eptzSimple.set_crop sw sh ow oh z px py = some r →
      0 ≤ r.1 ∧ 0 ≤ r.2.1 ∧ r.1 + r.2.2.1 ≤ sw ∧ r.2.1 + r.2.2.2 ≤ sh) ∧
    (∀ r : ℤ × ℤ × ℤ × ℤ, fpvEptzDemo.calculate_crop sw sh ow oh z px py = some r →
      0 ≤ r.1 ∧ 0 ≤ r.2.1 ∧ r.1 + r.2.2.1 ≤ sw ∧ r.2.1 + r.2.2.2 ≤ sh) := by
  refine ⟨fun r hr => ?_, fun r hr => ?_, fun r hr => ?_⟩
  · obtain ⟨-, -, -, -, b1, b2, b3, b4⟩ :=
      recording_props hsw hsh how hoh hz hpx0 hpx1 hpy0 hpy1 hr
    exact ⟨b1, b2, b3, b4⟩
  · obtain ⟨-, -, -, -, b1, b2, b3, b4⟩ :=
      simple_props hsw hsh how hoh hz hpx0 hpx1 hpy0 hpy1 hr
    exact ⟨b1, b2, b3, b4⟩
  · obtain ⟨-, -, -, -, b1, b2, b3, b4⟩ :=
      fpv_props hsw hsh how hoh hz hpx0 hpx1 hpy0 hpy1 hr
    exact ⟨b1, b2, b3, b4⟩

/-- Witness for C4 at sensor `4608×2592`, output `640×480`, zoom `2`,
pan `(0.5, 0.5)`. -/
theorem C4_crop_within_sensor_witness :
    (0 : ℤ) ≤ 1440 ∧ (0 : ℤ) ≤ 648 ∧
    (1440 : ℤ) + 1728 ≤ 4608 ∧ (648 : ℤ) + 1296 ≤ 2592 :=
  (@C4_crop_within_sensor 4608 2592 640 480 2 (1/2) (1/2) (by norm_num) (by norm_num)
    (by norm_num) (by norm_num) (by norm_num) (by norm_num) (by norm_num)
    (by norm_num) (by norm_num)).1
    (1440, 648, 1728, 1296)
    (by simp only [eptzRecording.calculate_crop, pyInt]; norm_num)

/-- C5 (counterexample): the crop calculator does *not* preserve the output
aspect ratio exactly.  At sensor `(1000, 1000)`, output `(640, 480)`,
zoom `1.5`, pan `(0.5, 0.5)` the recording variant (and the `eptz_demo.py`
variant) return `(166, 250, 666, 498)`, and `666 * 480 ≠ 498 * 640`. -/
theorem C5_aspect_not_exact_counterexample :
    eptzRecording.calculate_crop (1000, 1000) (640, 480) (3/2) (1/2) (1/2) =
      some (166, 250, 666, 498) ∧
    eptzDemo.calculate_crop 1000 1000 (640, 480) (3/2) (1/2) (1/2) =
      some (166, 250, 666, 498) ∧
    (666 : ℤ) * 480 ≠ 498 * 640 := by
  refine ⟨?_, ?_, by norm_num⟩
  · simp only [eptzRecording.calculate_crop, pyInt]; norm_num
  · simp only [eptzDemo.calculate_crop, pyInt]; norm_num

/-- C5 (amended): for every positive sensor size, positive output size, zoom
factor ≥ 1 and pan coordinates in `[0, 1]`, the crop rectangle returned by
the crop calculators of `eptz_recording.py` and `eptz_demo.py` preserves the
output aspect ratio up to the truncation error of the even alignment:
`-2 * output_height < width * output_height - height * output_width
 < 2 * output_width` (exact equality can fail). -/
theorem C5_aspect_ratio_approx {sw sh ow oh : ℤ} {z px py : ℚ}
    (hsw : 0 < sw) (hsh : 0 < sh) (how : 0 < ow) (hoh : 0 < oh) (hz : 1 ≤ z)
    (hpx0 : 0 ≤ px) (hpx1 : px ≤ 1) (hpy0 : 0 ≤ py) (hpy1 : py ≤ 1) :
    (∀ r : ℤ × ℤ × ℤ × ℤ, eptzRecording.calculate_crop (sw, sh) (ow, oh) z px py = some r →
      -2 * oh < r.2.2.1 * oh - r.2.2.2 * ow ∧ r.2.2.1 * oh - r.2.2.2 * ow < 2 * ow) ∧
    (∀ r : ℤ × ℤ × ℤ × ℤ, eptzDemo.calculate_crop sw sh (ow, oh) z px py = some r →
      -2 * oh < r.2.2.1 * oh - r.2.2.2 * ow ∧ r.2.2.1 * oh - r.2.2.2 * ow < 2 * ow) := by
  constructor
  · intro r hr
    obtain ⟨hch, hreq⟩ := recording_char hsw hsh how hoh hz hr
    rw [hreq]
    exact @ratio_bound_cropAspect ow oh (pyInt ((sw : ℚ) / z)) (pyInt ((sh : ℚ) / z))
      how hoh (cropDim_nonneg hsw hz) (cropDim_nonneg hsh hz)
  · intro r hr
    have hreq := demo_char hsw hsh how hoh hz hpx0 hpx1 hpy0 hpy1 hr
    rw [hreq]
    exact @ratio_bound_sensorAspectCrop sw sh ow oh (pyInt ((sw : ℚ) / z))
      (pyInt ((sh : ℚ) / z)) how hoh (cropDim_nonneg hsw hz) (cropDim_nonneg hsh hz)

/-- Witness for C5 (amended) at sensor `(1000, 1000)`, output `(640, 480)`,
zoom `1.5`, pan `(0.5, 0.5)`, where the returned crop is
`(166, 250, 666, 498)`. -/
theorem C5_aspect_ratio_approx_witness :
    (-2 : ℤ) * 480 < 666 * 480 - 498 * 640 ∧ (666 : ℤ) * 480 - 498 * 640 < 2 * 640 :=
  (@C5_aspect_ratio_approx 1000 1000 640 480 (3/2) (1/2) (1/2) (by norm_num) (by norm_num)
    (by norm_num) (by norm_num) (by norm_num) (by norm_num) (by norm_num)
    (by norm_num) (by norm_num)).1
    (166, 250, 666, 498)
    (by simp only [eptzRecording.calculate_crop, pyInt]; norm_num)

/-- C7: for fixed positive sensor and output sizes and zoom factor ≥ 1, the
`x` coordinate returned by `calculate_crop` of `eptz_recording.py` is
monotonically non-decreasing in `pan_x` on `[0, 1]`, and the `y` coordinate is
monotonically non-decreasing in `pan_y` on `[0, 1]`. -/
theorem C7_position_monotone_in_pan {sw sh ow oh : ℤ} {z px py px' py' : ℚ}
    (hsw : 0 < sw) (hsh : 0 < sh) (how : 0 < ow) (hoh : 0 < oh) (hz : 1 ≤ z)
    (hpx0 : 0 ≤ px) (hpx1 : px' ≤ 1) (hpx : px ≤ px')
    (hpy0 : 0 ≤ py) (hpy1 : py' ≤ 1) (hpy : py ≤ py')
    {r r' : ℤ × ℤ × ℤ × ℤ}
    (h1 : eptzRecording.calculate_crop (sw, sh) (ow, oh) z px py = some r)
    (h2 : eptzRecording.calculate_crop (sw, sh) (ow, oh) z px' py' = some r') :
    r.1 ≤ r'.1 ∧ r.2.1 ≤ r'.2.1 := by
  obtain ⟨hch, hreq⟩ := recording_char hsw hsh how hoh hz h1
  obtain ⟨-, hreq'⟩ := recording_char hsw hsh how hoh hz h2
  have hch0 : 0 < pyInt ((sh : ℚ) / z) :=
    lt_of_le_of_ne (cropDim_nonneg hsh hz) (Ne.symm hch)
  obtain ⟨hw0, hwc, hh0, hhc⟩ :=
    cropAspect_bounds how hoh (cropDim_nonneg hsw hz) hch0
  have hws := hwc.trans (cropDim_le hsw hz)
  have hhs := hhc.trans (cropDim_le hsh hz)
  rw [hreq, hreq']
  rw [cropClampTail_eq_cropTail hw0 hws hh0 hhs hpx0 (hpx.trans hpx1) hpy0 (hpy.trans hpy1),
    cropClampTail_eq_cropTail hw0 hws hh0 hhs (hpx0.trans hpx) hpx1 (hpy0.trans hpy) hpy1]
  exact cropTail_mono hws hhs hpx0 hpy0 hpx hpy

/-- Witness for C7 at sensor `4608×2592`, output `640×480`, zoom `2`,
pan `(0.25, 0.25)` vs `(0.75, 0.75)`: crops `(720, 324, …)` and
`(2160, 972, …)`. -/
theorem C7_position_monotone_in_pan_witness :
    (720 : ℤ) ≤ 2160 ∧ (324 : ℤ) ≤ 972 :=
  @C7_position_monotone_in_pan 4608 2592 640 480 2 (1/4) (1/4) (3/4) (3/4)
    (by norm_num) (by norm_num) (by norm_num) (by norm_num) (by norm_num)
    (by norm_num) (by norm_num) (by norm_num) (by norm_num) (by norm_num)
    (by norm_num)
    (720, 324, 1728, 1296) (2160, 972, 1728, 1296)
    (by simp only [eptzRecording.calculate_crop, pyInt]; norm_num)
    (by simp only [eptzRecording.calculate_crop, pyInt]; norm_num)

/-- C8: the ePTZ crop calculators (the `eptz_recording.py` and
`fpv_eptz_demo.py` embeddings) are pure, deterministic functions: they depend
on nothing but their arguments, so any two calls with equal arguments return
equal crop rectangles. -/
theorem C8_crop_deterministic (ss os ss' os' : ℤ × ℤ) (z px py z' px' py' : ℚ)
    (sw sh ow oh sw' sh' ow' oh' : ℤ)
    (h1 : ss = ss') (h2 : os = os') (hz : z = z') (hx : px = px') (hy : py = py')
    (h3 : sw = sw') (h4 : sh = sh') (h5 : ow = ow') (h6 : oh = oh') :
    eptzRecording.calculate_crop ss os z px py =
      eptzRecording.calculate_crop ss' os' z' px' py' ∧
    fpvEptzDemo.calculate_crop sw sh ow oh z px py =
      fpvEptzDemo.calculate_crop sw' sh' ow' oh' z' px' py' := by
  subst_vars
  exact ⟨rfl, rfl⟩

/-- Witness for C8 at a concrete argument vector. -/
theorem C8_crop_deterministic_witness :
    eptzRecording.calculate_crop (4608, 2592) (640, 480) 2 (1/2) (1/2) =
      eptzRecording.calculate_crop (4608, 2592) (640, 480) 2 (1/2) (1/2) ∧
    fpvEptzDemo.calculate_crop 4608 2592 640 480 2 (1/2) (1/2) =
      fpvEptzDemo.calculate_crop 4608 2592 640 480 2 (1/2) (1/2) :=
  C8_crop_deterministic (4608, 2592) (640, 480) (4608, 2592) (640, 480)
    2 (1/2) (1/2) 2 (1/2) (1/2) 4608 2592 640 480 4608 2592 640 480
    rfl rfl rfl rfl rfl rfl rfl rfl rfl

/-! ## Lemmas about the overlay canvas primitives -/

theorem sliceLo_nonneg {len : ℤ} (a : ℤ) (hlen : 0 ≤ len) : 0 ≤ sliceLo len a := by
  unfold sliceLo; split <;> omega

theorem sliceHi_le {len : ℤ} (b : ℤ) (hlen : 0 ≤ len) : sliceHi len b ≤ len := by
  unfold sliceHi; split <;> omega

/-- A numpy slice assignment never touches a pixel outside the array bounds:
the buffer is never grown. -/
theorem writeSlice_outside {height width : ℤ} (canvas : ℤ → ℤ → Pix)
    (ys ye xs xe : ℤ) (c : Pix) (hh : 0 ≤ height) (hw : 0 ≤ width) {y x : ℤ}
    (hout : ¬ (0 ≤ y ∧ y < height ∧ 0 ≤ x ∧ x < width)) :
    writeSlice height width canvas ys ye xs xe c y x = canvas y x := by
  unfold writeSlice
  rw [if_neg]
  intro h
  obtain ⟨h1, h2, h3, h4⟩ := h
  have l1 := sliceLo_nonneg ys hh
  have l2 := sliceHi_le ye hh
  have l3 := sliceLo_nonneg xs hw
  have l4 := sliceHi_le xe hw
  exact hout ⟨by omega, by omega, by omega, by omega⟩

theorem toUint8_uint8 (c : Pix) : pixIsUint8 (toUint8 c) :=
  ⟨Nat.mod_lt _ (by norm_num), Nat.mod_lt _ (by norm_num),
   Nat.mod_lt _ (by norm_num), Nat.mod_lt _ (by norm_num)⟩

/-- A numpy slice assignment keeps every pixel a valid uint8 value. -/
theorem writeSlice_uint8 {height width : ℤ} (canvas : ℤ → ℤ → Pix)
    (ys ye xs xe : ℤ) (c : Pix) (hc : canvasUint8 canvas) :
    canvasUint8 (writeSlice height width canvas ys ye xs xe c) := by
  intro y x
  unfold writeSlice
  split
  · exact toUint8_uint8 c
  · exact hc y x

/-- A pixel of a slice-assignment target is either untouched or holds the
written value. -/
theorem writeSlice_cases {height width : ℤ} (canvas : ℤ → ℤ → Pix)
    (ys ye xs xe : ℤ) (c : Pix) (y x : ℤ) :
    writeSlice height width canvas ys ye xs xe c y x = canvas y x ∨
    writeSlice height width canvas ys ye xs xe c y x = toUint8 c := by
  unfold writeSlice
  split
  · exact Or.inr rfl
  · exact Or.inl rfl

/-! ### `_clear_region` -/

theorem clear_region_width (s : OverlayHelper) (x y w h : ℤ) :
    (s._clear_region x y w h).width = s.width := by
  simp only [OverlayHelper._clear_region]; split <;> rfl

theorem clear_region_height (s : OverlayHelper) (x y w h : ℤ) :
    (s._clear_region x y w h).height = s.height := by
  simp only [OverlayHelper._clear_region]; split <;> rfl

theorem clear_region_bg (s : OverlayHelper) (x y w h : ℤ) :
    (s._clear_region x y w h).background_color = s.background_color := by
  simp only [OverlayHelper._clear_region]; split <;> rfl

theorem clear_region_elements (s : OverlayHelper) (x y w h : ℤ) :
    (s._clear_region x y w h).elements = s.elements := by
  simp only [OverlayHelper._clear_region]; split <;> rfl

theorem clear_region_dirty (s : OverlayHelper) (x y w h : ℤ) :
    (s._clear_region x y w h).dirty_regions = s.dirty_regions := by
  simp only [OverlayHelper._clear_region]; split <;> rfl

theorem clear_region_count (s : OverlayHelper) (x y w h : ℤ) :
    (s._clear_region x y w h).update_count = s.update_count := by
  simp only [OverlayHelper._clear_region]; split <;> rfl

theorem clear_region_outside (s : OverlayHelper) (x y w h : ℤ)
    (hh : 0 ≤ s.height) (hw : 0 ≤ s.width) {qy qx : ℤ}
    (hout : ¬ inCanvas s qy qx) :
    (s._clear_region x y w h).overlay qy qx = s.overlay qy qx := by
  simp only [OverlayHelper._clear_region]
  split
  · exact writeSlice_outside s.overlay _ _ _ _ _ hh hw hout
  · rfl

theorem clear_region_uint8 (s : OverlayHelper) (x y w h : ℤ)
    (hc : canvasUint8 s.overlay) :
    canvasUint8 (s._clear_region x y w h).overlay := by
  simp only [OverlayHelper._clear_region]
  split
  · exact writeSlice_uint8 s.overlay _ _ _ _ _ hc
  · exact hc

/-- A cleared pixel either kept its value or now holds the background color. -/
theorem clear_region_cases (s : OverlayHelper) (x y w h : ℤ) (qy qx : ℤ) :
    (s._clear_region x y w h).overlay qy qx = s.overlay qy qx ∨
    (s._clear_region x y w h).overlay qy qx = toUint8 s.background_color := by
  simp only [OverlayHelper._clear_region]
  split
  · exact writeSlice_cases s.overlay _ _ _ _ _ qy qx
  · exact Or.inl rfl

/-- Every pixel of the region, clipped to the canvas, is set to the
background color. -/
theorem clear_region_hit (s : OverlayHelper) (x y w h : ℤ) {qy qx : ℤ}
    (hx1 : max 0 x ≤ qx) (hx2 : qx < min s.width (x + w))
    (hy1 : max 0 y ≤ qy) (hy2 : qy < min s.height (y + h)) :
    (s._clear_region x y w h).overlay qy qx = toUint8 s.background_color := by
  simp only [OverlayHelper._clear_region]
  rw [if_pos (by constructor <;> omega)]
  show writeSlice _ _ _ _ _ _ _ _ _ _ = _
  unfold writeSlice
  rw [if_pos]
  refine ⟨?_, ?_, ?_, ?_⟩ <;> simp only [sliceLo, sliceHi] <;> split <;> omega

/-! ### The clearing fold of `clear_dirty_regions` -/

theorem fold_clear_fields (l : List (ℤ × ℤ × ℤ × ℤ)) : ∀ s : OverlayHelper,
    (l.foldl (fun acc r => acc._clear_region r.1 r.2.1 r.2.2.1 r.2.2.2) s).width = s.width ∧
    (l.foldl (fun acc r => acc._clear_region r.1 r.2.1 r.2.2.1 r.2.2.2) s).height = s.height ∧
    (l.foldl (fun acc r => acc._clear_region r.1 r.2.1 r.2.2.1 r.2.2.2) s).background_color =
      s.background_color ∧
    (l.foldl (fun acc r => acc._clear_region r.1 r.2.1 r.2.2.1 r.2.2.2) s).elements =
      s.elements ∧
    (l.foldl (fun acc r => acc._clear_region r.1 r.2.1 r.2.2.1 r.2.2.2) s).update_count =
      s.update_count := by
  induction l with
  | nil => intro s; exact ⟨rfl, rfl, rfl, rfl, rfl⟩
  | cons a t ih =>
    intro s
    simp only [List.foldl_cons]
    obtain ⟨h1, h2, h3, h4, h5⟩ := ih (s._clear_region a.1 a.2.1 a.2.2.1 a.2.2.2)
    exact ⟨h1.trans (clear_region_width s _ _ _ _),
           h2.trans (clear_region_height s _ _ _ _),
           h3.trans (clear_region_bg s _ _ _ _),
           h4.trans (clear_region_elements s _ _ _ _),
           h5.trans (clear_region_count s _ _ _ _)⟩

theorem fold_clear_outside (l : List (ℤ × ℤ × ℤ × ℤ)) : ∀ s : OverlayHelper,
    0 ≤ s.height → 0 ≤ s.width → ∀ qy qx : ℤ, ¬ inCanvas s qy qx →
    (l.foldl (fun acc r => acc._clear_region r.1 r.2.1 r.2.2.1 r.2.2.2) s).overlay qy qx =
      s.overlay qy qx := by
  induction l with
  | nil => intro s _ _ qy qx _; rfl
  | cons a t ih =>
    intro s hh hw qy qx hout
    simp only [List.foldl_cons]
    have hh' : 0 ≤ (s._clear_region a.1 a.2.1 a.2.2.1 a.2.2.2).height := by
      rw [clear_region_height]; exact hh
    have hw' : 0 ≤ (s._clear_region a.1 a.2.1 a.2.2.1 a.2.2.2).width := by
      rw [clear_region_width]; exact hw
    have hout' : ¬ inCanvas (s._clear_region a.1 a.2.1 a.2.2.1 a.2.2.2) qy qx := by
      unfold inCanvas at hout ⊢
      rw [clear_region_height, clear_region_width]
      exact hout
    rw [ih _ hh' hw' qy qx hout']
    exact clear_region_outside s _ _ _ _ hh hw hout

theorem fold_clear_uint8 (l : List (ℤ × ℤ × ℤ × ℤ)) : ∀ s : OverlayHelper,
    canvasUint8 s.overlay →
    canvasUint8 (l.foldl (fun acc r => acc._clear_region r.1 r.2.1 r.2.2.1 r.2.2.2) s).overlay := by
  induction l with
  | nil => intro s hc; exact hc
  | cons a t ih =>
    intro s hc
    simp only [List.foldl_cons]
    exact ih _ (clear_region_uint8 s _ _ _ _ hc)

theorem fold_clear_keep_bg (l : List (ℤ × ℤ × ℤ × ℤ)) : ∀ (s : OverlayHelper) (qy qx : ℤ),
    s.overlay qy qx = toUint8 s.background_color →
    (l.foldl (fun acc r => acc._clear_region r.1 r.2.1 r.2.2.1 r.2.2.2) s).overlay qy qx =
      toUint8 s.background_color := by
  induction l with
  | nil => intro s qy qx hbg; exact hbg
  | cons a t ih =>
    intro s qy qx hbg
    simp only [List.foldl_cons]
    have hbg' : (s._clear_region a.1 a.2.1 a.2.2.1 a.2.2.2).overlay qy qx =
        toUint8 (s._clear_region a.1 a.2.1 a.2.2.1 a.2.2.2).background_color := by
      rw [clear_region_bg]
      rcases clear_region_cases s a.1 a.2.1 a.2.2.1 a.2.2.2 qy qx with hcase | hcase
      · rw [hcase]; exact hbg
      · exact hcase
    have := ih _ qy qx hbg'
    rw [this, clear_region_bg]

/-- If the pixel lies in the clip (to the canvas) of some region of the list,
the clearing fold paints it with the background color. -/
theorem fold_clear_mem (l : List (ℤ × ℤ × ℤ × ℤ)) : ∀ (s : OverlayHelper)
    (r : ℤ × ℤ × ℤ × ℤ), r ∈ l → ∀ qy qx : ℤ,
    max 0 r.1 ≤ qx → qx < min s.width (r.1 + r.2.2.1) →
    max 0 r.2.1 ≤ qy → qy < min s.height (r.2.1 + r.2.2.2) →
    (l.foldl (fun acc r => acc._clear_region r.1 r.2.1 r.2.2.1 r.2.2.2) s).overlay qy qx =
      toUint8 s.background_color := by
  induction l with
  | nil => intro s r hr; exact absurd hr (List.not_mem_nil r)
  | cons a t ih =>
    intro s r hr qy qx hx1 hx2 hy1 hy2
    simp only [List.foldl_cons]
    rcases List.mem_cons.mp hr with rfl | hmem
    · have hbg : (s._clear_region r.1 r.2.1 r.2.2.1 r.2.2.2).overlay qy qx =
          toUint8 (s._clear_region r.1 r.2.1 r.2.2.1 r.2.2.2).background_color := by
        rw [clear_region_bg]
        exact clear_region_hit s r.1 r.2.1 r.2.2.1 r.2.2.2 hx1 hx2 hy1 hy2
      have := fold_clear_keep_bg t _ qy qx hbg
      rw [this, clear_region_bg]
    · have hx2' : qx < min (s._clear_region a.1 a.2.1 a.2.2.1 a.2.2.2).width
          (r.1 + r.2.2.1) := by
        rw [clear_region_width]; exact hx2
      have hy2' : qy < min (s._clear_region a.1 a.2.1 a.2.2.1 a.2.2.2).height
          (r.2.1 + r.2.2.2) := by
        rw [clear_region_height]; exact hy2
      have := ih _ r hmem qy qx hx1 hx2' hy1 hy2'
      rw [this, clear_region_bg]

/-! ### `add_rectangle` -/

theorem add_rectangle_width (s : OverlayHelper) (name : String) (x y w h : ℤ)
    (color : Pix) (filled : Bool) (t : ℤ) :
    (s.add_rectangle name x y w h color filled t).width = s.width := by
  simp only [OverlayHelper.add_rectangle, OverlayHelper._mark_dirty]
  cases hget : dictGet s.elements name <;> simp only [hget] <;> split <;> rfl

theorem add_rectangle_height (s : OverlayHelper) (name : String) (x y w h : ℤ)
    (color : Pix) (filled : Bool) (t : ℤ) :
    (s.add_rectangle name x y w h color filled t).height = s.height := by
  simp only [OverlayHelper.add_rectangle, OverlayHelper._mark_dirty]
  cases hget : dictGet s.elements name <;> simp only [hget] <;> split <;> rfl

theorem add_rectangle_bg (s : OverlayHelper) (name : String) (x y w h : ℤ)
    (color : Pix) (filled : Bool) (t : ℤ) :
    (s.add_rectangle name x y w h color filled t).background_color = s.background_color := by
  simp only [OverlayHelper.add_rectangle, OverlayHelper._mark_dirty]
  cases hget : dictGet s.elements name <;> simp only [hget] <;> split <;> rfl

/-- Re-adding under an existing name appends the element's previous bounding
box to the dirty-region list (it is not cleared immediately). -/
theorem add_rectangle_dirty_of_mem {s : OverlayHelper} {name : String}
    (x y w h : ℤ) (color : Pix) (filled : Bool) (t : ℤ) {e : OverlayElement}
    (hget : dictGet s.elements name = some e) :
    (s.add_rectangle name x y w h color filled t).dirty_regions =
      s.dirty_regions ++ [(e.x, e.y, e.width, e.height)] := by
  simp only [OverlayHelper.add_rectangle, OverlayHelper._mark_dirty, hget]
  split <;> rfl

/-- The filled-rectangle draw is exactly a clipped slice assignment on the
canvas. -/
theorem add_rectangle_overlay_filled (s : OverlayHelper) (name : String)
    (x y w h : ℤ) (color : Pix) (t : ℤ) :
    (s.add_rectangle name x y w h color true t).overlay =
      writeSlice s.height s.width s.overlay
        (max 0 y) (min s.height (y + h)) (max 0 x) (min s.width (x + w)) color := by
  simp only [OverlayHelper.add_rectangle, OverlayHelper._mark_dirty]
  cases hget : dictGet s.elements name <;> simp only [hget] <;> rfl

theorem add_rectangle_outside (s : OverlayHelper) (name : String) (x y w h : ℤ)
    (color : Pix) (filled : Bool) (t : ℤ) (hh : 0 ≤ s.height) (hw : 0 ≤ s.width)
    {qy qx : ℤ} (hout : ¬ inCanvas s qy qx) :
    (s.add_rectangle name x y w h color filled t).overlay qy qx = s.overlay qy qx := by
  simp only [OverlayHelper.add_rectangle, OverlayHelper._mark_dirty]
  cases hget : dictGet s.elements name <;> simp only [hget] <;> split
  · exact writeSlice_outside _ _ _ _ _ _ hh hw hout
  · exact (writeSlice_outside _ _ _ _ _ _ hh hw hout).trans
      ((writeSlice_outside _ _ _ _ _ _ hh hw hout).trans
        ((writeSlice_outside _ _ _ _ _ _ hh hw hout).trans
          (writeSlice_outside _ _ _ _ _ _ hh hw hout)))
  · exact writeSlice_outside _ _ _ _ _ _ hh hw hout
  · exact (writeSlice_outside _ _ _ _ _ _ hh hw hout).trans
      ((writeSlice_outside _ _ _ _ _ _ hh hw hout).trans
        ((writeSlice_outside _ _ _ _ _ _ hh hw hout).trans
          (writeSlice_outside _ _ _ _ _ _ hh hw hout)))

theorem add_rectangle_uint8 (s : OverlayHelper) (name : String) (x y w h : ℤ)
    (color : Pix) (filled : Bool) (t : ℤ) (hc : canvasUint8 s.overlay) :
    canvasUint8 (s.add_rectangle name x y w h color filled t).overlay := by
  simp only [OverlayHelper.add_rectangle, OverlayHelper._mark_dirty]
  cases hget : dictGet s.elements name <;> simp only [hget] <;> split
  · exact writeSlice_uint8 _ _ _ _ _ _ hc
  · exact writeSlice_uint8 _ _ _ _ _ _
      (writeSlice_uint8 _ _ _ _ _ _
        (writeSlice_uint8 _ _ _ _ _ _ (writeSlice_uint8 _ _ _ _ _ _ hc)))
  · exact writeSlice_uint8 _ _ _ _ _ _ hc
  · exact writeSlice_uint8 _ _ _ _ _ _
      (writeSlice_uint8 _ _ _ _ _ _
        (writeSlice_uint8 _ _ _ _ _ _ (writeSlice_uint8 _ _ _ _ _ _ hc)))

theorem add_rectangle_shape (s : OverlayHelper) (name : String) (x y w h : ℤ)
    (color : Pix) (filled : Bool) (t : ℤ) (hh : 0 ≤ s.height) (hw : 0 ≤ s.width) :
    preservesShape s (s.add_rectangle name x y w h color filled t) :=
  ⟨add_rectangle_width s name x y w h color filled t,
   add_rectangle_height s name x y w h color filled t,
   add_rectangle_bg s name x y w h color filled t,
   fun _ _ hout => add_rectangle_outside s name x y w h color filled t hh hw hout⟩

/-! ### Shape and dtype preservation of the remaining operations -/

theorem clear_dirty_shape (s : OverlayHelper) (hh : 0 ≤ s.height) (hw : 0 ≤ s.width) :
    preservesShape s s.clear_dirty_regions := by
  obtain ⟨h1, h2, h3, -, -⟩ := fold_clear_fields s.dirty_regions s
  exact ⟨h1, h2, h3, fun qy qx hout => fold_clear_outside s.dirty_regions s hh hw qy qx hout⟩

theorem clear_dirty_uint8 (s : OverlayHelper) (hc : canvasUint8 s.overlay) :
    canvasUint8 s.clear_dirty_regions.overlay :=
  fold_clear_uint8 s.dirty_regions s hc

theorem clear_all_shape (s : OverlayHelper) (hh : 0 ≤ s.height) (hw : 0 ≤ s.width) :
    preservesShape s s.clear_all :=
  ⟨rfl, rfl, rfl, fun _ _ hout => writeSlice_outside _ _ _ _ _ _ hh hw hout⟩

theorem clear_all_uint8 (s : OverlayHelper) (hc : canvasUint8 s.overlay) :
    canvasUint8 s.clear_all.overlay :=
  writeSlice_uint8 _ _ _ _ _ _ hc

theorem remove_element_shape (s : OverlayHelper) (name : String)
    (hh : 0 ≤ s.height) (hw : 0 ≤ s.width) :
    preservesShape s (s.remove_element name) := by
  unfold OverlayHelper.remove_element
  cases hget : dictGet s.elements name <;> simp only [hget]
  · exact ⟨rfl, rfl, rfl, fun _ _ _ => rfl⟩
  · exact ⟨clear_region_width s _ _ _ _, clear_region_height s _ _ _ _,
      clear_region_bg s _ _ _ _,
      fun _ _ hout => clear_region_outside s _ _ _ _ hh hw hout⟩

theorem remove_element_uint8 (s : OverlayHelper) (name : String)
    (hc : canvasUint8 s.overlay) :
    canvasUint8 (s.remove_element name).overlay := by
  unfold OverlayHelper.remove_element
  cases hget : dictGet s.elements name <;> simp only [hget]
  · exact hc
  · exact clear_region_uint8 s _ _ _ _ hc

theorem hide_element_shape (s : OverlayHelper) (name : String)
    (hh : 0 ≤ s.height) (hw : 0 ≤ s.width) :
    preservesShape s (s.hide_element name) := by
  unfold OverlayHelper.hide_element
  cases hget : dictGet s.elements name <;> simp only [hget]
  · exact ⟨rfl, rfl, rfl, fun _ _ _ => rfl⟩
  · rename_i e
    refine ⟨clear_region_width _ _ _ _ _, clear_region_height _ _ _ _ _,
      clear_region_bg _ _ _ _ _, fun qy qx hout => ?_⟩
    exact clear_region_outside
      { s with elements := dictSet s.elements name { e with visible := false } }
      _ _ _ _ hh hw hout

theorem hide_element_uint8 (s : OverlayHelper) (name : String)
    (hc : canvasUint8 s.overlay) :
    canvasUint8 (s.hide_element name).overlay := by
  unfold OverlayHelper.hide_element
  cases hget : dictGet s.elements name <;> simp only [hget]
  · exact hc
  · rename_i e
    exact clear_region_uint8
      { s with elements := dictSet s.elements name { e with visible := false } }
      _ _ _ _ hc

theorem show_element_shape (s : OverlayHelper) (name : String) :
    preservesShape s (s.show_element name) := by
  unfold OverlayHelper.show_element
  cases hget : dictGet s.elements name <;> simp only [hget]
  · exact ⟨rfl, rfl, rfl, fun _ _ _ => rfl⟩
  · exact ⟨rfl, rfl, rfl, fun _ _ _ => rfl⟩

theorem show_element_uint8 (s : OverlayHelper) (name : String)
    (hc : canvasUint8 s.overlay) :
    canvasUint8 (s.show_element name).overlay := by
  unfold OverlayHelper.show_element
  cases hget : dictGet s.elements name <;> simp only [hget]
  · exact hc
  · exact hc

theorem add_line_shape (s : OverlayHelper) (cv2_available : Bool)
    (cv2_line : (ℤ → ℤ → Pix) → ℤ → ℤ → Pix)
    (name : String) (x1 y1 x2 y2 : ℤ) (color : Pix) (t : ℤ)
    (hh : 0 ≤ s.height) (hw : 0 ≤ s.width)
    (hline : ∀ (canvas : ℤ → ℤ → Pix) (qy qx : ℤ), ¬ inCanvas s qy qx →
      cv2_line canvas qy qx = canvas qy qx) :
    preservesShape s (s.add_line cv2_available cv2_line name x1 y1 x2 y2 color t) := by
  unfold OverlayHelper.add_line
  split
  · exact add_rectangle_shape s name _ _ _ _ color true 2 hh hw
  · cases hget : dictGet s.elements name <;>
      simp only [OverlayHelper._mark_dirty, hget] <;>
      exact ⟨rfl, rfl, rfl, fun qy qx hout => hline _ qy qx hout⟩

theorem add_line_uint8 (s : OverlayHelper) (cv2_available : Bool)
    (cv2_line : (ℤ → ℤ → Pix) → ℤ → ℤ → Pix)
    (name : String) (x1 y1 x2 y2 : ℤ) (color : Pix) (t : ℤ)
    (hc : canvasUint8 s.overlay)
    (hline : ∀ canvas : ℤ → ℤ → Pix, canvasUint8 canvas → canvasUint8 (cv2_line canvas)) :
    canvasUint8 (s.add_line cv2_available cv2_line name x1 y1 x2 y2 color t).overlay := by
  unfold OverlayHelper.add_line
  split
  · exact add_rectangle_uint8 s name _ _ _ _ color true 2 hc
  · cases hget : dictGet s.elements name <;> simp only [OverlayHelper._mark_dirty, hget] <;>
      exact hline _ hc

theorem add_circle_shape (s : OverlayHelper) (cv2_available : Bool)
    (cv2_circle : (ℤ → ℤ → Pix) → ℤ → ℤ → Pix)
    (name : String) (cx cy radius : ℤ) (color : Pix) (filled : Bool) (t : ℤ)
    (hh : 0 ≤ s.height) (hw : 0 ≤ s.width)
    (hcirc : ∀ (canvas : ℤ → ℤ → Pix) (qy qx : ℤ), ¬ inCanvas s qy qx →
      cv2_circle canvas qy qx = canvas qy qx) :
    preservesShape s (s.add_circle cv2_available cv2_circle name cx cy radius color filled t) := by
  unfold OverlayHelper.add_circle
  split
  · exact add_rectangle_shape s name _ _ _ _ color filled 2 hh hw
  · cases hget : dictGet s.elements name <;>
      simp only [OverlayHelper._mark_dirty, hget] <;>
      exact ⟨rfl, rfl, rfl, fun qy qx hout => hcirc _ qy qx hout⟩

theorem add_circle_uint8 (s : OverlayHelper) (cv2_available : Bool)
    (cv2_circle : (ℤ → ℤ → Pix) → ℤ → ℤ → Pix)
    (name : String) (cx cy radius : ℤ) (color : Pix) (filled : Bool) (t : ℤ)
    (hc : canvasUint8 s.overlay)
    (hcirc : ∀ canvas : ℤ → ℤ → Pix, canvasUint8 canvas → canvasUint8 (cv2_circle canvas)) :
    canvasUint8 (s.add_circle cv2_available cv2_circle name cx cy radius color filled t).overlay := by
  unfold OverlayHelper.add_circle
  split
  · exact add_rectangle_uint8 s name _ _ _ _ color filled 2 hc
  · cases hget : dictGet s.elements name <;> simp only [OverlayHelper._mark_dirty, hget] <;>
      exact hcirc _ hc

theorem add_text_shape (s : OverlayHelper) (cv2_available : Bool)
    (tw th bl : ℤ) (cv2_putText : (ℤ → ℤ → Pix) → ℤ → ℤ → Pix)
    (name : String) (x y : ℤ)
    (htext : ∀ (canvas : ℤ → ℤ → Pix) (qy qx : ℤ), ¬ inCanvas s qy qx →
      cv2_putText canvas qy qx = canvas qy qx) :
    preservesShape s (s.add_text cv2_available tw th bl cv2_putText name x y) := by
  unfold OverlayHelper.add_text
  split
  · exact ⟨rfl, rfl, rfl, fun _ _ _ => rfl⟩
  · cases hget : dictGet s.elements name <;>
      simp only [OverlayHelper._mark_dirty, hget] <;>
      exact ⟨rfl, rfl, rfl, fun qy qx hout => htext _ qy qx hout⟩

theorem add_text_uint8 (s : OverlayHelper) (cv2_available : Bool)
    (tw th bl : ℤ) (cv2_putText : (ℤ → ℤ → Pix) → ℤ → ℤ → Pix)
    (name : String) (x y : ℤ) (hc : canvasUint8 s.overlay)
    (htext : ∀ canvas : ℤ → ℤ → Pix, canvasUint8 canvas → canvasUint8 (cv2_putText canvas)) :
    canvasUint8 (s.add_text cv2_available tw th bl cv2_putText name x y).overlay := by
  unfold OverlayHelper.add_text
  split
  · exact hc
  · cases hget : dictGet s.elements name <;> simp only [OverlayHelper._mark_dirty, hget] <;>
      exact htext _ hc

theorem update_text_shape (s : OverlayHelper) (cv2_available : Bool)
    (tw th bl : ℤ) (cv2_putText : (ℤ → ℤ → Pix) → ℤ → ℤ → Pix)
    (name : String) (x y : ℤ)
    (htext : ∀ (canvas : ℤ → ℤ → Pix) (qy qx : ℤ), ¬ inCanvas s qy qx →
      cv2_putText canvas qy qx = canvas qy qx) :
    preservesShape s (s.update_text cv2_available tw th bl cv2_putText name x y) :=
  add_text_shape s cv2_available tw th bl cv2_putText name x y htext

theorem update_text_uint8 (s : OverlayHelper) (cv2_available : Bool)
    (tw th bl : ℤ) (cv2_putText : (ℤ → ℤ → Pix) → ℤ → ℤ → Pix)
    (name : String) (x y : ℤ) (hc : canvasUint8 s.overlay)
    (htext : ∀ canvas : ℤ → ℤ → Pix, canvasUint8 canvas → canvasUint8 (cv2_putText canvas)) :
    canvasUint8 (s.update_text cv2_available tw th bl cv2_putText name x y).overlay :=
  add_text_uint8 s cv2_available tw th bl cv2_putText name x y hc htext

/-! ### Dirty-marking behavior of the remaining update paths -/

/-- `add_line` under an existing name appends the old bounding box on both
paths: the no-cv2 fallback goes through `add_rectangle`, the cv2 path marks
directly. -/
theorem add_line_dirty_of_mem {s : OverlayHelper} {name : String}
    (avail : Bool) (prim : (ℤ → ℤ → Pix) → ℤ → ℤ → Pix)
    (x1 y1 x2 y2 : ℤ) (color : Pix) (t : ℤ) {e : OverlayElement}
    (hget : dictGet s.elements name = some e) :
    (s.add_line avail prim name x1 y1 x2 y2 color t).dirty_regions =
      s.dirty_regions ++ [(e.x, e.y, e.width, e.height)] := by
  unfold OverlayHelper.add_line
  split
  · exact add_rectangle_dirty_of_mem _ _ _ _ color true 2 hget
  · simp only [OverlayHelper._mark_dirty, hget]

/-- `add_circle` under an existing name appends the old bounding box on both
paths. -/
theorem add_circle_dirty_of_mem {s : OverlayHelper} {name : String}
    (avail : Bool) (prim : (ℤ → ℤ → Pix) → ℤ → ℤ → Pix)
    (cx cy radius : ℤ) (color : Pix) (filled : Bool) (t : ℤ) {e : OverlayElement}
    (hget : dictGet s.elements name = some e) :
    (s.add_circle avail prim name cx cy radius color filled t).dirty_regions =
      s.dirty_regions ++ [(e.x, e.y, e.width, e.height)] := by
  unfold OverlayHelper.add_circle
  split
  · exact add_rectangle_dirty_of_mem _ _ _ _ color filled 2 hget
  · simp only [OverlayHelper._mark_dirty, hget]

/-- `add_text` with cv2 available appends the old bounding box. -/
theorem add_text_dirty_of_mem {s : OverlayHelper} {name : String}
    (tw th bl : ℤ) (prim : (ℤ → ℤ → Pix) → ℤ → ℤ → Pix) (x y : ℤ)
    {e : OverlayElement} (hget : dictGet s.elements name = some e) :
    (s.add_text true tw th bl prim name x y).dirty_regions =
      s.dirty_regions ++ [(e.x, e.y, e.width, e.height)] := by
  unfold OverlayHelper.add_text
  rw [if_neg (by simp)]
  simp only [OverlayHelper._mark_dirty, hget]

/-- `add_text` with cv2 unavailable is a complete no-op: it returns the
helper unchanged, marking nothing. -/
theorem add_text_no_cv2 (s : OverlayHelper) (tw th bl : ℤ)
    (prim : (ℤ → ℤ → Pix) → ℤ → ℤ → Pix) (name : String) (x y : ℤ) :
    s.add_text false tw th bl prim name x y = s := by
  unfold OverlayHelper.add_text
  rw [if_pos rfl]

theorem update_text_dirty_of_mem {s : OverlayHelper} {name : String}
    (tw th bl : ℤ) (prim : (ℤ → ℤ → Pix) → ℤ → ℤ → Pix) (x y : ℤ)
    {e : OverlayElement} (hget : dictGet s.elements name = some e) :
    (s.update_text true tw th bl prim name x y).dirty_regions =
      s.dirty_regions ++ [(e.x, e.y, e.width, e.height)] := by
  unfold OverlayHelper.update_text
  exact add_text_dirty_of_mem tw th bl prim x y hget

theorem update_text_no_cv2 (s : OverlayHelper) (tw th bl : ℤ)
    (prim : (ℤ → ℤ → Pix) → ℤ → ℤ → Pix) (name : String) (x y : ℤ) :
    s.update_text false tw th bl prim name x y = s := by
  unfold OverlayHelper.update_text
  exact add_text_no_cv2 s tw th bl prim name x y

/-- `clear_dirty_regions` empties the dirty-region list and paints every
pixel of every queued box, clipped to the canvas, with the background
color. -/
theorem clear_dirty_clears (s : OverlayHelper) :
    (s.clear_dirty_regions).dirty_regions = [] ∧
    ∀ r : ℤ × ℤ × ℤ × ℤ, r ∈ s.dirty_regions → ∀ qy qx : ℤ,
      max 0 r.1 ≤ qx → qx < min s.width (r.1 + r.2.2.1) →
      max 0 r.2.1 ≤ qy → qy < min s.height (r.2.1 + r.2.2.2) →
      (s.clear_dirty_regions).overlay qy qx = toUint8 s.background_color := by
  refine ⟨rfl, ?_⟩
  intro r hr qy qx hx1 hx2 hy1 hy2
  have hov : (s.clear_dirty_regions).overlay =
      (s.dirty_regions.foldl (fun acc r => acc._clear_region r.1 r.2.1 r.2.2.1 r.2.2.2)
        s).overlay := rfl
  rw [hov]
  exact fold_clear_mem s.dirty_regions s r hr qy qx hx1 hx2 hy1 hy2

/-! ## Claim theorems: the overlay helper -/

/-- C1 (counterexample): re-adding an element under an existing name does
*not* clear the previous bounding box before the new drawing is written.
On a 4×4 canvas with transparent background, `add_rectangle("a", 0, 0, 1, 1, red)`
followed by `add_rectangle("a", 2, 0, 1, 1, red)` leaves pixel `(0, 0)` — inside
the previous bounding box and outside the new rectangle — still red, not
background: the old box is only appended to the dirty-region list. -/
theorem C1_no_immediate_clear_counterexample :
    (((OverlayHelper.init 4 4 (0, 0, 0, 0)).add_rectangle "a" 0 0 1 1
        (255, 0, 0, 200) true 2).add_rectangle "a" 2 0 1 1
        (255, 0, 0, 200) true 2).overlay 0 0 = (255, 0, 0, 200) ∧
    (((OverlayHelper.init 4 4 (0, 0, 0, 0)).add_rectangle "a" 0 0 1 1
        (255, 0, 0, 200) true 2).add_rectangle "a" 2 0 1 1
        (255, 0, 0, 200) true 2).background_color = (0, 0, 0, 0) ∧
    ((255, 0, 0, 200) : Pix) ≠ (0, 0, 0, 0) := by
  refine ⟨by decide, by decide, by decide⟩

/-- C1 (amended): re-adding/updating an element under an existing name does
not clear its previous bounding box before the new drawing; instead
`add_rectangle`, `add_line` and `add_circle` (on both cv2 paths) and
`add_text`/`update_text` when cv2 is available append the old bounding box to
the dirty-region list, while `add_text`/`update_text` with cv2 unavailable
return the helper unchanged and mark nothing.  The next call to
`clear_dirty_regions` then sets every pixel of every queued box, clipped to
the canvas, to the background color and empties the list. -/
theorem C1_update_defers_clear (s : OverlayHelper) (name : String) (e : OverlayElement)
    (hget : dictGet s.elements name = some e) :
    (∀ (x y w h : ℤ) (color : Pix) (filled : Bool) (t : ℤ),
      (s.add_rectangle name x y w h color filled t).dirty_regions =
        s.dirty_regions ++ [(e.x, e.y, e.width, e.height)]) ∧
    (∀ (avail : Bool) (prim : (ℤ → ℤ → Pix) → ℤ → ℤ → Pix) (x1 y1 x2 y2 : ℤ)
      (color : Pix) (t : ℤ),
      (s.add_line avail prim name x1 y1 x2 y2 color t).dirty_regions =
        s.dirty_regions ++ [(e.x, e.y, e.width, e.height)]) ∧
    (∀ (avail : Bool) (prim : (ℤ → ℤ → Pix) → ℤ → ℤ → Pix) (cx cy radius : ℤ)
      (color : Pix) (filled : Bool) (t : ℤ),
      (s.add_circle avail prim name cx cy radius color filled t).dirty_regions =
        s.dirty_regions ++ [(e.x, e.y, e.width, e.height)]) ∧
    (∀ (tw th bl : ℤ) (prim : (ℤ → ℤ → Pix) → ℤ → ℤ → Pix) (x y : ℤ),
      (s.add_text true tw th bl prim name x y).dirty_regions =
        s.dirty_regions ++ [(e.x, e.y, e.width, e.height)] ∧
      (s.update_text true tw th bl prim name x y).dirty_regions =
        s.dirty_regions ++ [(e.x, e.y, e.width, e.height)] ∧
      s.add_text false tw th bl prim name x y = s ∧
      s.update_text false tw th bl prim name x y = s) ∧
    (∀ s' : OverlayHelper,
      (s'.clear_dirty_regions).dirty_regions = [] ∧
      ∀ r : ℤ × ℤ × ℤ × ℤ, r ∈ s'.dirty_regions → ∀ qy qx : ℤ,
        max 0 r.1 ≤ qx → qx < min s'.width (r.1 + r.2.2.1) →
        max 0 r.2.1 ≤ qy → qy < min s'.height (r.2.1 + r.2.2.2) →
        (s'.clear_dirty_regions).overlay qy qx = toUint8 s'.background_color) := by
  refine ⟨?_, ?_, ?_, ?_, fun s' => clear_dirty_clears s'⟩
  · intro x y w h color filled t
    exact add_rectangle_dirty_of_mem x y w h color filled t hget
  · intro avail prim x1 y1 x2 y2 color t
    exact add_line_dirty_of_mem avail prim x1 y1 x2 y2 color t hget
  · intro avail prim cx cy radius color filled t
    exact add_circle_dirty_of_mem avail prim cx cy radius color filled t hget
  · intro tw th bl prim x y
    exact ⟨add_text_dirty_of_mem tw th bl prim x y hget,
      update_text_dirty_of_mem tw th bl prim x y hget,
      add_text_no_cv2 s tw th bl prim name x y,
      update_text_no_cv2 s tw th bl prim name x y⟩

/-- Witness for C1 (amended): after `add_rectangle("a", 0, 0, 1, 1, …)`, a
re-add at `(2, 0)` queues the old box `(0, 0, 1, 1)`, an `add_text` without
cv2 changes nothing, and `clear_dirty_regions` resets the queued box's pixel
`(0, 0)` to the background. -/
theorem C1_update_defers_clear_witness :
    (((OverlayHelper.init 4 4 (0, 0, 0, 0)).add_rectangle "a" 0 0 1 1
        (255, 0, 0, 200) true 2).add_rectangle "a" 2 0 1 1
        (255, 0, 0, 200) true 2).dirty_regions =
      ((OverlayHelper.init 4 4 (0, 0, 0, 0)).add_rectangle "a" 0 0 1 1
        (255, 0, 0, 200) true 2).dirty_regions ++ [(0, 0, 1, 1)] ∧
    ((OverlayHelper.init 4 4 (0, 0, 0, 0)).add_rectangle "a" 0 0 1 1
        (255, 0, 0, 200) true 2).add_text false 5 5 2 id "a" 0 0 =
      (OverlayHelper.init 4 4 (0, 0, 0, 0)).add_rectangle "a" 0 0 1 1
        (255, 0, 0, 200) true 2 ∧
    ((((OverlayHelper.init 4 4 (0, 0, 0, 0)).add_rectangle "a" 0 0 1 1
        (255, 0, 0, 200) true 2).add_rectangle "a" 2 0 1 1
        (255, 0, 0, 200) true 2).clear_dirty_regions).overlay 0 0 =
      toUint8 (((OverlayHelper.init 4 4 (0, 0, 0, 0)).add_rectangle "a" 0 0 1 1
        (255, 0, 0, 200) true 2).add_rectangle "a" 2 0 1 1
        (255, 0, 0, 200) true 2).background_color := by
  have T := C1_update_defers_clear
    ((OverlayHelper.init 4 4 (0, 0, 0, 0)).add_rectangle "a" 0 0 1 1
      (255, 0, 0, 200) true 2) "a" ⟨"a", 0, 0, 1, 1, true⟩ (by decide)
  exact ⟨T.1 2 0 1 1 (255, 0, 0, 200) true 2,
    (T.2.2.2.1 5 5 2 id 0 0).2.2.1,
    (T.2.2.2.2 (((OverlayHelper.init 4 4 (0, 0, 0, 0)).add_rectangle "a" 0 0 1 1
        (255, 0, 0, 200) true 2).add_rectangle "a" 2 0 1 1
        (255, 0, 0, 200) true 2)).2 (0, 0, 1, 1) (by decide) 0 0
      (by decide) (by decide) (by decide) (by decide)⟩

/-- C6: `get_array` leaves the helper state unchanged and returns the canvas
field itself (no copy): the pair returned by the embedding has the original
state as its second component and the `overlay` field as its first, and a
drawing operation performed on the helper afterwards produces exactly the
slice update of the array that `get_array` returned — the mutation is
observable through the previously returned array. -/
theorem C6_get_array_reference (s : OverlayHelper) (name : String) (x y w h : ℤ)
    (color : Pix) (t : ℤ) :
    (s.get_array).2 = s ∧
    (s.get_array).1 = s.overlay ∧
    ((s.get_array).2.add_rectangle name x y w h color true t).overlay =
      writeSlice s.height s.width ((s.get_array).1)
        (max 0 y) (min s.height (y + h)) (max 0 x) (min s.width (x + w)) color :=
  ⟨rfl, rfl, add_rectangle_overlay_filled s name x y w h color t⟩

/-- C9: every overlay operation preserves the construction-time fields
(`width`, `height`, `background_color`), never touches a pixel outside the
canvas bounds (the buffer is never reallocated or resized), and keeps every
pixel a valid uint8 value.  For the `cv2`-backed operations this holds for
any in-place drawing primitive that itself stays inside the canvas and
produces uint8 values — which is forced for `cv2` functions mutating a
fixed-shape uint8 numpy array. -/
theorem C9_operations_preserve_shape (s : OverlayHelper)
    (hh : 0 ≤ s.height) (hw : 0 ≤ s.width) :
    (∀ (name : String) (x y w h : ℤ) (color : Pix) (filled : Bool) (t : ℤ),
      preservesShape s (s.add_rectangle name x y w h color filled t) ∧
      (canvasUint8 s.overlay →
        canvasUint8 (s.add_rectangle name x y w h color filled t).overlay)) ∧
    (∀ (avail : Bool) (prim : (ℤ → ℤ → Pix) → ℤ → ℤ → Pix) (name : String)
      (x1 y1 x2 y2 : ℤ) (color : Pix) (t : ℤ),
      (∀ (canvas : ℤ → ℤ → Pix) (qy qx : ℤ), ¬ inCanvas s qy qx →
        prim canvas qy qx = canvas qy qx) →
      (∀ canvas : ℤ → ℤ → Pix, canvasUint8 canvas → canvasUint8 (prim canvas)) →
      preservesShape s (s.add_line avail prim name x1 y1 x2 y2 color t) ∧
      (canvasUint8 s.overlay →
        canvasUint8 (s.add_line avail prim name x1 y1 x2 y2 color t).overlay)) ∧
    (∀ (avail : Bool) (prim : (ℤ → ℤ → Pix) → ℤ → ℤ → Pix) (name : String)
      (cx cy radius : ℤ) (color : Pix) (filled : Bool) (t : ℤ),
      (∀ (canvas : ℤ → ℤ → Pix) (qy qx : ℤ), ¬ inCanvas s qy qx →
        prim canvas qy qx = canvas qy qx) →
      (∀ canvas : ℤ → ℤ → Pix, canvasUint8 canvas → canvasUint8 (prim canvas)) →
      preservesShape s (s.add_circle avail prim name cx cy radius color filled t) ∧
      (canvasUint8 s.overlay →
        canvasUint8 (s.add_circle avail prim name cx cy radius color filled t).overlay)) ∧
    (∀ (avail : Bool) (tw th bl : ℤ) (prim : (ℤ → ℤ → Pix) → ℤ → ℤ → Pix)
      (name : String) (x y : ℤ),
      (∀ (canvas : ℤ → ℤ → Pix) (qy qx : ℤ), ¬ inCanvas s qy qx →
        prim canvas qy qx = canvas qy qx) →
      (∀ canvas : ℤ → ℤ → Pix, canvasUint8 canvas → canvasUint8 (prim canvas)) →
      (preservesShape s (s.add_text avail tw th bl prim name x y) ∧
        (canvasUint8 s.overlay →
          canvasUint8 (s.add_text avail tw th bl prim name x y).overlay)) ∧
      (preservesShape s (s.update_text avail tw th bl prim name x y) ∧
        (canvasUint8 s.overlay →
          canvasUint8 (s.update_text avail tw th bl prim name x y).overlay))) ∧
    (∀ name : String,
      (preservesShape s (s.remove_element name) ∧
        (canvasUint8 s.overlay → canvasUint8 (s.remove_element name).overlay)) ∧
      (preservesShape s (s.hide_element name) ∧
        (canvasUint8 s.overlay → canvasUint8 (s.hide_element name).overlay)) ∧
      (preservesShape s (s.show_element name) ∧
        (canvasUint8 s.overlay → canvasUint8 (s.show_element name).overlay))) ∧
    (preservesShape s s.clear_dirty_regions ∧
      (canvasUint8 s.overlay → canvasUint8 s.clear_dirty_regions.overlay)) ∧
    (preservesShape s s.clear_all ∧
      (canvasUint8 s.overlay → canvasUint8 s.clear_all.overlay)) ∧
    (s.get_array).2 = s := by
  refine ⟨?_, ?_, ?_, ?_, ?_, ?_, ?_, rfl⟩
  · intro name x y w h color filled t
    exact ⟨add_rectangle_shape s name x y w h color filled t hh hw,
      fun hc => add_rectangle_uint8 s name x y w h color filled t hc⟩
  · intro avail prim name x1 y1 x2 y2 color t hout hu
    exact ⟨add_line_shape s avail prim name x1 y1 x2 y2 color t hh hw hout,
      fun hc => add_line_uint8 s avail prim name x1 y1 x2 y2 color t hc hu⟩
  · intro avail prim name cx cy radius color filled t hout hu
    exact ⟨add_circle_shape s avail prim name cx cy radius color filled t hh hw hout,
      fun hc => add_circle_uint8 s avail prim name cx cy radius color filled t hc hu⟩
  · intro avail tw th bl prim name x y hout hu
    exact ⟨⟨add_text_shape s avail tw th bl prim name x y hout,
        fun hc => add_text_uint8 s avail tw th bl prim name x y hc hu⟩,
      ⟨update_text_shape s avail tw th bl prim name x y hout,
        fun hc => update_text_uint8 s avail tw th bl prim name x y hc hu⟩⟩
  · intro name
    exact ⟨⟨remove_element_shape s name hh hw, fun hc => remove_element_uint8 s name hc⟩,
      ⟨hide_element_shape s name hh hw, fun hc => hide_element_uint8 s name hc⟩,
      ⟨show_element_shape s name, fun hc => show_element_uint8 s name hc⟩⟩
  · exact ⟨clear_dirty_shape s hh hw, fun hc => clear_dirty_uint8 s hc⟩
  · exact ⟨clear_all_shape s hh hw, fun hc => clear_all_uint8 s hc⟩

/-- Witness for C9 on a concrete 4×4 helper and a concrete `add_rectangle`. -/
theorem C9_operations_preserve_shape_witness :
    preservesShape (OverlayHelper.init 4 4 (0, 0, 0, 0))
      ((OverlayHelper.init 4 4 (0, 0, 0, 0)).add_rectangle "a" 0 0 2 2
        (255, 0, 0, 200) true 2) :=
  ((C9_operations_preserve_shape (OverlayHelper.init 4 4 (0, 0, 0, 0))
    (by decide) (by decide)).1 "a" 0 0 2 2 (255, 0, 0, 200) true 2).1

/-- C10: calling `remove_element`, `hide_element` or `show_element` with a
name that is not a current element returns the state unchanged (canvas,
elements, dirty regions and counters included) and raises no error. -/
theorem C10_missing_name_noop (s : OverlayHelper) (name : String)
    (hget : dictGet s.elements name = none) :
    s.remove_element name = s ∧ s.hide_element name = s ∧ s.show_element name = s := by
  unfold OverlayHelper.remove_element OverlayHelper.hide_element OverlayHelper.show_element
  rw [hget]
  exact ⟨rfl, rfl, rfl⟩

/-- Witness for C10 on a freshly initialized helper and an absent name. -/
theorem C10_missing_name_noop_witness :
    (OverlayHelper.init 2 2 (0, 0, 0, 0)).remove_element "z" =
      OverlayHelper.init 2 2 (0, 0, 0, 0) ∧
    (OverlayHelper.init 2 2 (0, 0, 0, 0)).hide_element "z" =
      OverlayHelper.init 2 2 (0, 0, 0, 0) ∧
    (OverlayHelper.init 2 2 (0, 0, 0, 0)).show_element "z" =
      OverlayHelper.init 2 2 (0, 0, 0, 0) :=
  C10_missing_name_noop (OverlayHelper.init 2 2 (0, 0, 0, 0)) "z" rfl

end Picamera2
